import Mathlib

set_option maxRecDepth 8192

/-!
Shallow embedding of `src/storage.ts`: a DynamoDB-backed store for workflow
runs, steps, hooks and events.  JavaScript objects are modelled as association
lists from attribute names to `JVal` values; the DynamoDB table is a list of
such items.  Backend semantics follow DynamoDB: conditional puts fail when the
primary key exists, `UpdateItem` upserts (it creates the item when the key is
absent), conditional updates fail when the condition does not hold, and
queries return items ordered by the relevant sort attribute.
-/

namespace SstWdkWorld

/-- A JavaScript/DynamoDB attribute value.  `null` is a stored JSON null,
`num` an epoch-millisecond or numeric value, `str` a string, `date` a JS
`Date` object produced by the `compact` projection. -/
inductive JVal where
  | null
  | num (n : Int)
  | str (s : String)
  | date (n : Int)
  deriving DecidableEq, Repr

/-- A stored record: an association list of attributes (a JS object). -/
abbrev Item := List (String × JVal)

/-- The DynamoDB table contents. -/
abbrev Table := List Item

/-- `WorkflowAPIError` from `@workflow/errors`: a message plus HTTP status. -/
structure WError where
  msg : String
  status : Nat
  deriving DecidableEq, Repr

/- Key helpers from the source (`runPK`, `runMetaSK`, `stepSK`, `eventSK`,
`hookSK`). -/

def runPK (runId : String) : String := "RUN#" ++ runId

def runMetaSK : String := "RUN#METADATA"

def stepSK (stepId : String) : String := "STEP#" ++ stepId

def eventSK (eventId : String) : String := "EVENT#" ++ eventId

def hookSK (hookId : String) : String := "HOOK#" ++ hookId

/-- Attribute lookup on an item (JS property read; `none` = `undefined`). -/
def getAttr (it : Item) (k : String) : Option JVal :=
  (it.find? (fun p => p.1 == k)).map (fun p => p.2)

/-- String content of an attribute (`""` when absent or not a string). -/
def itemStr (it : Item) (k : String) : String :=
  match getAttr it k with
  | some (JVal.str s) => s
  | _ => ""

/-- Numeric content of the `createdAt` attribute (`0` when absent). -/
def createdAtKey (it : Item) : Int :=
  match getAttr it "createdAt" with
  | some (JVal.num n) => n
  | _ => 0

/-- The item's sort key string. -/
def skStr (it : Item) : String := itemStr it "SK"

/-- Does the item sit at primary key `(pk, sk)`? -/
def keyMatches (it : Item) (pk sk : String) : Bool :=
  getAttr it "PK" == some (JVal.str pk) && getAttr it "SK" == some (JVal.str sk)

/-- DynamoDB `GetItem` by primary key. -/
def getItem (t : Table) (pk sk : String) : Option Item :=
  t.find? (fun it => keyMatches it pk sk)

def keyExists (t : Table) (pk sk : String) : Bool :=
  (getItem t pk sk).isSome

/-- Replace the item stored at `(pk, sk)`. -/
def replaceItem (t : Table) (pk sk : String) (it' : Item) : Table :=
  t.map (fun it => if keyMatches it pk sk then it' else it)

/-- JS property assignment `obj[k] = v`: overwrite in place, else append. -/
def setAttr (it : Item) (k : String) (v : JVal) : Item :=
  if it.any (fun p => p.1 == k) then
    it.map (fun p => if p.1 == k then (k, v) else p)
  else it ++ [(k, v)]

/-- Apply a DynamoDB `SET a = v, ...` update expression left to right. -/
def applySets (it : Item) (sets : List (String × JVal)) : Item :=
  sets.foldl (fun acc p => setAttr acc p.1 p.2) it

/-- DynamoDB `UpdateItem` (no condition): upserts — when the key is absent a
fresh item carrying only the key attributes and the SET values is created.
Returns the `ALL_NEW` image together with the new table. -/
def updateItem (t : Table) (pk sk : String) (sets : List (String × JVal)) :
    Item × Table :=
  match getItem t pk sk with
  | some it =>
      let it' := applySets it sets
      (it', replaceItem t pk sk it')
  | none =>
      let it' := applySets [("PK", JVal.str pk), ("SK", JVal.str sk)] sets
      (it', it' :: t)

/-- JS truthiness of a possibly absent attribute value (`!current.startedAt`).
`undefined`, `null`, `0` and `""` are falsy; a `Date` object is truthy. -/
def jsFalsy : Option JVal → Bool
  | none => true
  | some JVal.null => true
  | some (JVal.num n) => n == 0
  | some (JVal.str s) => s == ""
  | some (JVal.date _) => false

/-- Is `k` one of the four timestamp attributes converted by `compact`? -/
def tsKey (k : String) : Bool :=
  k == "createdAt" || k == "updatedAt" || k == "startedAt" || k == "completedAt"

/-- The `compact` projection: drops attributes whose stored value is `null`
(the source sets them to `undefined`, i.e. absent) and converts numeric
timestamp attributes to `Date` instants; everything else is copied. -/
def compact (it : Item) : Item :=
  it.filterMap (fun p =>
    match p.2 with
    | JVal.null => none
    | JVal.num n =>
        if tsKey p.1 then some (p.1, JVal.date n) else some (p.1, JVal.num n)
    | v => some (p.1, v))

/-! ## Run store (`createRunsStorage`)

Each operation takes the table, the call arguments, and the value of
`Date.now()` (`now`) — and, for `create`, the freshly generated ulid-based
identifier.  Operations return the `Except` outcome together with the table
after the call. -/

/-- `runs.get(id)`. -/
def runs_get (t : Table) (id : String) : Except WError Item :=
  match getItem t (runPK id) runMetaSK with
  | some it => Except.ok (compact it)
  | none => Except.error ⟨"Run not found: " ++ id, 404⟩

/-- `runs.cancel(id)`: an unconditional `UpdateCommand` with
`ReturnValues: ALL_NEW`.  The backend upserts and always returns the new
image, so the source's `if (!Attributes) throw NotFound` guard is
unreachable. -/
def runs_cancel (t : Table) (id : String) (now : Int) : Except WError Item × Table :=
  let r := updateItem t (runPK id) runMetaSK
    [("status", JVal.str "cancelled"), ("completedAt", JVal.num now),
     ("updatedAt", JVal.num now)]
  (Except.ok (compact r.1), r.2)

/-- `runs.pause(id)`: unconditional update, same upsert behaviour. -/
def runs_pause (t : Table) (id : String) (now : Int) : Except WError Item × Table :=
  let r := updateItem t (runPK id) runMetaSK
    [("status", JVal.str "paused"), ("updatedAt", JVal.num now)]
  (Except.ok (compact r.1), r.2)

/-- `runs.resume(id)`: conditional update `ConditionExpression: #s = :old`
with `:old = "paused"`.  A conditional update on an absent key, or whose
condition fails, raises `ConditionalCheckFailedException`, which the source
catches and rethrows as a 404 `Paused run not found`. -/
def runs_resume (t : Table) (id : String) (now : Int) : Except WError Item × Table :=
  match getItem t (runPK id) runMetaSK with
  | some it =>
      if getAttr it "status" == some (JVal.str "paused") then
        let it' := applySets it
          [("status", JVal.str "running"), ("updatedAt", JVal.num now)]
        (Except.ok (compact it'), replaceItem t (runPK id) runMetaSK it')
      else (Except.error ⟨"Paused run not found: " ++ id, 404⟩, t)
  | none => (Except.error ⟨"Paused run not found: " ++ id, 404⟩, t)

/-- `runs.create(data)` with the generated id passed in. -/
def runs_create (t : Table) (id : String) (workflowName : String) (input : JVal)
    (executionContext : Option JVal) (deploymentId : JVal) (now : Int) :
    Except WError Item × Table :=
  let item : Item :=
    [("PK", JVal.str (runPK id)), ("SK", JVal.str runMetaSK),
     ("entityType", JVal.str "Run"), ("runId", JVal.str id),
     ("workflowName", JVal.str workflowName), ("input", input),
     ("executionContext", executionContext.getD JVal.null),
     ("deploymentId", deploymentId), ("status", JVal.str "pending"),
     ("createdAt", JVal.num now), ("updatedAt", JVal.num now)]
  if keyExists t (runPK id) runMetaSK then
    (Except.error ⟨"Run " ++ id ++ " already exists", 409⟩, t)
  else (Except.ok (compact item), item :: t)

/-- The partial update accepted by `runs.update`.  `none` is a JS `undefined`
field (skipped); `some v` is a present field copied into the update. -/
structure RunPatch where
  status : Option JVal := none
  output : Option JVal := none
  error : Option JVal := none
  errorCode : Option JVal := none
  deploymentId : Option JVal := none
  executionContext : Option JVal := none
  deriving DecidableEq, Repr

/-- One optional `SET` clause. -/
def optSet (k : String) : Option JVal → List (String × JVal)
  | some v => [(k, v)]
  | none => []

/-- Is the patch's status one of the given string literals
(`[...].includes(data.status)`)? -/
def statusIn (st : Option JVal) (l : List String) : Bool :=
  match st with
  | some (JVal.str s) => l.contains s
  | _ => false

/-- `runs.update(id, data)`: reads the current record (404 when absent),
copies the recognised fields, adds `startedAt` on a first transition to
`running` (JS-falsy check on the stored value), adds `completedAt` on
`completed`/`failed`/`cancelled`, and always sets `updatedAt` — hence the
source's `setParts.length === 0` early return is unreachable. -/
def runs_update (t : Table) (id : String) (p : RunPatch) (now : Int) :
    Except WError Item × Table :=
  match getItem t (runPK id) runMetaSK with
  | none => (Except.error ⟨"Run not found: " ++ id, 404⟩, t)
  | some current =>
      let sets :=
        optSet "status" p.status ++ optSet "output" p.output ++
        optSet "error" p.error ++ optSet "errorCode" p.errorCode ++
        optSet "deploymentId" p.deploymentId ++
        optSet "executionContext" p.executionContext ++
        (if p.status == some (JVal.str "running") &&
            jsFalsy (getAttr current "startedAt") then
          [("startedAt", JVal.num now)] else []) ++
        (if statusIn p.status ["completed", "failed", "cancelled"] then
          [("completedAt", JVal.num now)] else []) ++
        [("updatedAt", JVal.num now)]
      let r := updateItem t (runPK id) runMetaSK sets
      (Except.ok (compact r.1), r.2)

/-! ## Step store (`createStepsStorage`) -/

/-- `steps.create(runId, data)` with a caller-supplied (or generated) step
id. -/
def steps_create (t : Table) (runId stepId : String) (stepName input : JVal)
    (now : Int) : Except WError Item × Table :=
  let item : Item :=
    [("PK", JVal.str (runPK runId)), ("SK", JVal.str (stepSK stepId)),
     ("entityType", JVal.str "Step"), ("runId", JVal.str runId),
     ("stepId", JVal.str stepId), ("stepName", stepName), ("input", input),
     ("status", JVal.str "pending"), ("attempt", JVal.num 1),
     ("createdAt", JVal.num now), ("updatedAt", JVal.num now)]
  if keyExists t (runPK runId) (stepSK stepId) then
    (Except.error ⟨"Step " ++ stepId ++ " already exists", 409⟩, t)
  else (Except.ok (compact item), item :: t)

/-- `steps.get(runId, stepId)`: a falsy `runId` (empty string) throws 404
before any backend call. -/
def steps_get (t : Table) (runId stepId : String) : Except WError Item :=
  if runId == "" then Except.error ⟨"Run not found: " ++ runId, 404⟩
  else
    match getItem t (runPK runId) (stepSK stepId) with
    | some it => Except.ok (compact it)
    | none => Except.error ⟨"Step not found: " ++ stepId, 404⟩

/-- The partial update accepted by `steps.update`. -/
structure StepPatch where
  status : Option JVal := none
  output : Option JVal := none
  error : Option JVal := none
  errorCode : Option JVal := none
  attempt : Option JVal := none
  deriving DecidableEq, Repr

/-- `steps.update(runId, stepId, data)`: like the run version but the
terminal-status list is only `completed`/`failed` (no `cancelled`). -/
def steps_update (t : Table) (runId stepId : String) (p : StepPatch)
    (now : Int) : Except WError Item × Table :=
  match getItem t (runPK runId) (stepSK stepId) with
  | none => (Except.error ⟨"Step not found: " ++ stepId, 404⟩, t)
  | some current =>
      let sets :=
        optSet "status" p.status ++ optSet "output" p.output ++
        optSet "error" p.error ++ optSet "errorCode" p.errorCode ++
        optSet "attempt" p.attempt ++
        (if p.status == some (JVal.str "running") &&
            jsFalsy (getAttr current "startedAt") then
          [("startedAt", JVal.num now)] else []) ++
        (if statusIn p.status ["completed", "failed"] then
          [("completedAt", JVal.num now)] else []) ++
        [("updatedAt", JVal.num now)]
      let r := updateItem t (runPK runId) (stepSK stepId) sets
      (Except.ok (compact r.1), r.2)

/-! ## Hook store (`createHooksStorage`) -/

/-- `hooks.create(runId, data)`. -/
def hooks_create (t : Table) (runId hookId token : String) (now : Int) :
    Except WError Item × Table :=
  let item : Item :=
    [("PK", JVal.str (runPK runId)), ("SK", JVal.str (hookSK hookId)),
     ("entityType", JVal.str "Hook"), ("runId", JVal.str runId),
     ("hookId", JVal.str hookId), ("token", JVal.str token),
     ("ownerId", JVal.str ""), ("projectId", JVal.str ""),
     ("environment", JVal.str ""), ("createdAt", JVal.num now)]
  if keyExists t (runPK runId) (hookSK hookId) then
    (Except.error ⟨"Hook " ++ hookId ++ " already exists", 409⟩, t)
  else (Except.ok (compact item), item :: t)

/-- The `hookIdIndex` lookup (`Limit: 1`): all items whose `hookId` attribute
equals the given id, in index order (range key `PK`). -/
def hookIdQuery (t : Table) (hookId : String) : List Item :=
  ((t.filter (fun it => getAttr it "hookId" == some (JVal.str hookId))).insertionSort
    (fun a b => itemStr a "PK" ≤ itemStr b "PK")).take 1

/-- `hooks.get(hookId)`: secondary-index point lookup, 404 when empty. -/
def hooks_get (t : Table) (hookId : String) : Except WError Item :=
  match hookIdQuery t hookId with
  | [] => Except.error ⟨"Hook not found: " ++ hookId, 404⟩
  | it :: _ => Except.ok (compact it)

/-- The `tokenIndex` lookup used by `getByToken`. -/
def tokenQuery (t : Table) (token : String) : List Item :=
  ((t.filter (fun it => getAttr it "token" == some (JVal.str token))).insertionSort
    (fun a b => itemStr a "PK" ≤ itemStr b "PK")).take 1

/-- `hooks.getByToken(token)`, parameterised by the outcome of the backend
query (`Except.error` = a backend failure such as network/throttling).  The
source attaches `.catch(err => ({ Items: [] }))` to the query, so a backend
failure is replaced by an empty result list, which is then reported as a 404
`Hook not found for token` — the failure never propagates. -/
def hooks_getByToken (token : String) (backendResult : Except String (List Item)) :
    Except WError Item :=
  let items : List Item :=
    match backendResult with
    | Except.error _ => []
    | Except.ok l => l
  match items with
  | [] => Except.error ⟨"Hook not found for token: " ++ token, 404⟩
  | it :: _ => Except.ok (compact it)

/-! ## List operations and pagination

A DynamoDB `Query` returns the items matching the key condition ordered by
the index's sort attribute (`ScanIndexForward` picks the direction),
truncated to `Limit`.  We model an index query as filter + sort + take. -/

inductive SortOrder where
  | asc
  | desc
  deriving DecidableEq, Repr

/-- The shape every list operation returns: projected entities, the
more-results flag, and the cursor (`null` = `none`). -/
structure ListResult where
  data : List Item
  hasMore : Bool
  cursor : Option JVal
  deriving DecidableEq, Repr

/-- `values.at(-1)?.attr ?? null`. -/
def lastCursor (values : List Item) (attr : String) : Option JVal :=
  values.getLast?.bind (fun it => getAttr it attr)

/-- Sort descending by a key (largest first). -/
def sortDescBy {K : Type} [LinearOrder K] (f : Item → K) (l : List Item) :
    List Item :=
  l.insertionSort (fun a b => f b ≤ f a)

/-- Sort ascending by a key. -/
def sortAscBy {K : Type} [LinearOrder K] (f : Item → K) (l : List Item) :
    List Item :=
  l.insertionSort (fun a b => f a ≤ f b)

/-- JS truthiness of the numeric cursor parameter (`cursor ? ... : ...`). -/
def intCursor : Option Int → Option Int
  | some c => if c == 0 then none else some c
  | none => none

/-- JS truthiness of the string cursor parameter. -/
def strCursor : Option String → Option String
  | some c => if c == "" then none else some c
  | none => none

/-- Does the item carry a numeric attribute `k` (i.e. is it present in a
secondary index whose range key is `k`)? -/
def hasNumAttr (it : Item) (k : String) : Bool :=
  match getAttr it k with
  | some (JVal.num _) => true
  | _ => false

/-- Membership in a createdAt-ordered secondary index whose hash key is the
attribute `hashAttr` with value `hashVal`. -/
def inCreatedAtIndex (hashAttr : String) (hashVal : JVal) (it : Item) : Bool :=
  getAttr it hashAttr == some hashVal && hasNumAttr it "createdAt"

/-- Assemble a page: filter (where the source filters by entity type), slice
to `limit`, project, compute `hasMore` from the raw count and the cursor from
the last sliced raw item. -/
def pageOf (items : List Item) (keep : Item → Bool) (limit : Nat)
    (cursorAttr : String) : ListResult :=
  let values := (items.filter keep).take limit
  { data := values.map compact
    hasMore := decide (limit < items.length)
    cursor := lastCursor values cursorAttr }

/-- One createdAt-ordered index page as issued by `runs.list` and the global
branch of `hooks.list`: query the index for `limit + 1` records newest first,
`createdAt < cursor` when a truthy cursor is given. -/
def createdAtPage (t : Table) (hashAttr : String) (hashVal : JVal)
    (limit : Nat) (cursor : Option Int) (keep : Item → Bool) : ListResult :=
  let cond : Item → Bool :=
    match intCursor cursor with
    | some c => fun it =>
        inCreatedAtIndex hashAttr hashVal it && decide (createdAtKey it < c)
    | none => fun it => inCreatedAtIndex hashAttr hashVal it
  let items := (sortDescBy createdAtKey (t.filter cond)).take (limit + 1)
  pageOf items keep limit "createdAt"

/-- `runs.list(params)`: three query paths in priority order — by workflow
name, by status, or all runs via the entity-type index; all newest-first by
`createdAt`, no entity-type filter on the results. -/
def runs_list (t : Table) (workflowName status : Option String) (limit : Nat)
    (cursor : Option Int) : ListResult :=
  match workflowName with
  | some wf => createdAtPage t "workflowName" (JVal.str wf) limit cursor (fun _ => true)
  | none =>
      match status with
      | some s => createdAtPage t "status" (JVal.str s) limit cursor (fun _ => true)
      | none => createdAtPage t "entityType" (JVal.str "Run") limit cursor (fun _ => true)

/-- `steps.list(params)`: partition query `PK = RUN#runId` descending by sort
key, `SK < STEP#cursor` when a truthy cursor is given; results filtered to
`entityType === "Step"`, cursor from the last value's `stepId`. -/
def steps_list (t : Table) (runId : String) (limit : Nat)
    (cursor : Option String) : ListResult :=
  let cond : Item → Bool :=
    match strCursor cursor with
    | some c => fun it =>
        getAttr it "PK" == some (JVal.str (runPK runId)) &&
        decide (skStr it < stepSK c)
    | none => fun it => getAttr it "PK" == some (JVal.str (runPK runId))
  let items := (sortDescBy skStr (t.filter cond)).take (limit + 1)
  pageOf items (fun it => getAttr it "entityType" == some (JVal.str "Step"))
    limit "stepId"

/-- The `runId` branch of `hooks.list(params)`: partition query descending by
sort key, `SK < HOOK#cursor`, filtered to hooks, cursor from `hookId`. -/
def hooks_list_byRun (t : Table) (runId : String) (limit : Nat)
    (cursor : Option String) : ListResult :=
  let cond : Item → Bool :=
    match strCursor cursor with
    | some c => fun it =>
        getAttr it "PK" == some (JVal.str (runPK runId)) &&
        decide (skStr it < hookSK c)
    | none => fun it => getAttr it "PK" == some (JVal.str (runPK runId))
  let items := (sortDescBy skStr (t.filter cond)).take (limit + 1)
  pageOf items (fun it => getAttr it "entityType" == some (JVal.str "Hook"))
    limit "hookId"

/-- The global branch of `hooks.list`: entity-type index, newest first,
filtered (again) to hooks, cursor from `createdAt`. -/
def hooks_list_global (t : Table) (limit : Nat) (cursor : Option Int) :
    ListResult :=
  createdAtPage t "entityType" (JVal.str "Hook") limit cursor
    (fun it => getAttr it "entityType" == some (JVal.str "Hook"))

/-- `events.list(params)`: partition query ordered by sort key in the chosen
direction; the cursor is an event id, compared as `SK < EVENT#cursor` when
descending and `SK > EVENT#cursor` when ascending. -/
def events_list (t : Table) (runId : String) (limit : Nat)
    (sortOrder : SortOrder) (cursor : Option String) : ListResult :=
  let cond : Item → Bool :=
    match strCursor cursor with
    | some c => fun it =>
        getAttr it "PK" == some (JVal.str (runPK runId)) &&
        (match sortOrder with
         | SortOrder.desc => decide (skStr it < eventSK c)
         | SortOrder.asc => decide (eventSK c < skStr it))
    | none => fun it => getAttr it "PK" == some (JVal.str (runPK runId))
  let pool :=
    match sortOrder with
    | SortOrder.asc => sortAscBy skStr (t.filter cond)
    | SortOrder.desc => sortDescBy skStr (t.filter cond)
  let items := pool.take (limit + 1)
  pageOf items (fun it => getAttr it "entityType" == some (JVal.str "Event"))
    limit "eventId"

/-- `events.listByCorrelationId(params)`: `correlationIndex` ordered by
`createdAt`; the cursor is a timestamp, compared `createdAt > c` ascending
and `createdAt < c` descending. -/
def events_listByCorrelationId (t : Table) (correlationId : String)
    (limit : Nat) (sortOrder : SortOrder) (cursor : Option Int) : ListResult :=
  let cond : Item → Bool :=
    match intCursor cursor with
    | some c => fun it =>
        inCreatedAtIndex "correlationId" (JVal.str correlationId) it &&
        (match sortOrder with
         | SortOrder.desc => decide (createdAtKey it < c)
         | SortOrder.asc => decide (c < createdAtKey it))
    | none => fun it => inCreatedAtIndex "correlationId" (JVal.str correlationId) it
  let pool :=
    match sortOrder with
    | SortOrder.asc => sortAscBy createdAtKey (t.filter cond)
    | SortOrder.desc => sortDescBy createdAtKey (t.filter cond)
  let items := pool.take (limit + 1)
  pageOf items (fun it => getAttr it "entityType" == some (JVal.str "Event"))
    limit "createdAt"

/-! ## The logging wrapper (`loggerProxy`) -/

/-- A call observed through the logging proxy: the console lines emitted plus
the underlying outcome. -/
structure LoggedCall (α : Type) where
  log : List String
  result : α
  deriving Repr

/-- `loggerProxy`: logs the call, awaits the wrapped method, logs the result
on success (a rejection propagates before the result line is printed) and
returns the method's own result unchanged. -/
def loggerProxy {α β : Type} (prefixTag methodName : String)
    (method : α → Table → Except WError β × Table) :
    α → Table → LoggedCall (Except WError β × Table) :=
  fun a t =>
    let r := method a t
    { log :=
        ("Calling " ++ prefixTag ++ "." ++ methodName ++ " with args") ::
        (match r.1 with
         | Except.ok _ => [prefixTag ++ "." ++ methodName ++ " result"]
         | Except.error _ => [])
      result := r }

/-! ## Auxiliary definitions used by the verification -/

/-- The last value assigned to attribute `k` by a `SET` list (DynamoDB and JS
assignment are last-write-wins). -/
def lastVal : List (String × JVal) → String → Option JVal
  | [], _ => none
  | p :: rest, k => (lastVal rest k).or (if p.1 = k then some p.2 else none)

/-- The values slice of a page drawn from a sorted pool: the backend returns
`pool.take (limit + 1)`, the store filters by entity type and slices to
`limit`. -/
def pageVals (pool : List Item) (keep : Item → Bool) (limit : Nat) :
    List Item :=
  ((pool.take (limit + 1)).filter keep).take limit

/-- A concrete store with two runs of workflow `w` created at distinct
instants 2 and 1, used to exercise the pagination contract. -/
def tableW2 : Table :=
  [[("PK", JVal.str "RUN#r1"), ("SK", JVal.str "RUN#METADATA"),
    ("entityType", JVal.str "Run"), ("runId", JVal.str "r1"),
    ("workflowName", JVal.str "w"), ("status", JVal.str "pending"),
    ("createdAt", JVal.num 2)],
   [("PK", JVal.str "RUN#r2"), ("SK", JVal.str "RUN#METADATA"),
    ("entityType", JVal.str "Run"), ("runId", JVal.str "r2"),
    ("workflowName", JVal.str "w"), ("status", JVal.str "pending"),
    ("createdAt", JVal.num 1)]]

/-! ## Basic lemmas about attribute access and updates -/

theorem getAttr_cons (p : String × JVal) (it : Item) (k : String) :
    getAttr (p :: it) k = if p.1 = k then some p.2 else getAttr it k := by
  by_cases h : p.1 = k
  · unfold getAttr
    rw [List.find?_cons_of_pos _ (by simp [h])]
    simp [h]
  · unfold getAttr
    rw [List.find?_cons_of_neg _ (by simp [h])]
    simp [h]

theorem getAttr_map_update_other (it : Item) (k k' : String) (v : JVal)
    (hne : k' ≠ k) :
    getAttr (it.map (fun p => if p.1 == k then (k, v) else p)) k'
      = getAttr it k' := by
  induction it with
  | nil => rfl
  | cons q it ih =>
      rw [List.map_cons, getAttr_cons, getAttr_cons]
      by_cases hq : q.1 = k
      · have h1 : (if (q.1 == k) = true then (k, v) else q) = (k, v) := by
          simp [hq]
        rw [h1]
        have h2 : ¬ ((k, v).1 = k') := fun hh => hne hh.symm
        have h3 : ¬ (q.1 = k') := by
          rw [hq]; exact fun hh => hne hh.symm
        rw [if_neg h2, if_neg h3, ih]
      · have h1 : (if (q.1 == k) = true then (k, v) else q) = q := by
          simp [hq]
        rw [h1]
        by_cases hk' : q.1 = k'
        · rw [if_pos hk', if_pos hk']
        · rw [if_neg hk', if_neg hk', ih]

theorem getAttr_map_update_self (it : Item) (k : String) (v : JVal)
    (h : it.any (fun p => p.1 == k) = true) :
    getAttr (it.map (fun p => if p.1 == k then (k, v) else p)) k
      = some v := by
  induction it with
  | nil => simp at h
  | cons q it ih =>
      rw [List.map_cons, getAttr_cons]
      by_cases hq : q.1 = k
      · have h1 : (if (q.1 == k) = true then (k, v) else q) = (k, v) := by
          simp [hq]
        rw [h1, if_pos rfl]
      · have h1 : (if (q.1 == k) = true then (k, v) else q) = q := by
          simp [hq]
        rw [h1, if_neg hq]
        have h2 : it.any (fun p => p.1 == k) = true := by
          simp only [List.any_cons] at h
          rcases Bool.or_eq_true_iff.mp h with h3 | h3
          · exact absurd (by simpa using h3) hq
          · exact h3
        exact ih h2

theorem getAttr_append_single_other (it : Item) (k k' : String) (v : JVal)
    (hne : k' ≠ k) :
    getAttr (it ++ [(k, v)]) k' = getAttr it k' := by
  induction it with
  | nil =>
      have h2 : ¬ ((k, v).1 = k') := fun hh => hne hh.symm
      show getAttr [(k, v)] k' = getAttr [] k'
      rw [getAttr_cons, if_neg h2]
  | cons q it ih =>
      rw [List.cons_append, getAttr_cons, getAttr_cons, ih]

theorem getAttr_append_single_self (it : Item) (k : String) (v : JVal)
    (h : it.any (fun p => p.1 == k) = false) :
    getAttr (it ++ [(k, v)]) k = some v := by
  induction it with
  | nil =>
      show getAttr [(k, v)] k = some v
      rw [getAttr_cons, if_pos rfl]
  | cons q it ih =>
      simp only [List.any_cons, Bool.or_eq_false_iff] at h
      have hq : ¬ (q.1 = k) := by
        intro hh
        rw [hh] at h
        simpa using h.1
      rw [List.cons_append, getAttr_cons, if_neg hq]
      exact ih h.2

/-- JS assignment changes exactly the assigned attribute. -/
theorem getAttr_setAttr (it : Item) (k : String) (v : JVal) (k' : String) :
    getAttr (setAttr it k v) k' = if k' = k then some v else getAttr it k' := by
  unfold setAttr
  by_cases hany : it.any (fun p => p.1 == k) = true
  · rw [if_pos hany]
    by_cases hk : k' = k
    · subst hk
      rw [if_pos rfl]
      exact getAttr_map_update_self it k' v hany
    · rw [if_neg hk]
      exact getAttr_map_update_other it k k' v hk
  · rw [if_neg hany]
    by_cases hk : k' = k
    · subst hk
      rw [if_pos rfl]
      exact getAttr_append_single_self it k' v (Bool.eq_false_iff.mpr hany)
    · rw [if_neg hk]
      exact getAttr_append_single_other it k k' v hk

/-- Applying a `SET` list: the final value of every attribute is the last
value set for it, or the original one. -/
theorem getAttr_applySets (sets : List (String × JVal)) (it : Item)
    (k : String) :
    getAttr (applySets it sets) k = (lastVal sets k).or (getAttr it k) := by
  induction sets generalizing it with
  | nil => rw [show lastVal [] k = none from rfl, Option.none_or]; rfl
  | cons p rest ih =>
      have h1 : applySets it (p :: rest) = applySets (setAttr it p.1 p.2) rest := rfl
      have h2 : lastVal (p :: rest) k
          = (lastVal rest k).or (if p.1 = k then some p.2 else none) := rfl
      rw [h1, ih, getAttr_setAttr, h2]
      cases hl : lastVal rest k with
      | some v => simp only [Option.or_some]
      | none =>
          by_cases hk : k = p.1
          · rw [if_pos hk, if_pos hk.symm]
            simp only [Option.none_or, Option.or_some]
          · rw [if_neg hk, if_neg (fun hh => hk hh.symm)]
            simp only [Option.none_or]

theorem lastVal_append (a b : List (String × JVal)) (k : String) :
    lastVal (a ++ b) k = (lastVal b k).or (lastVal a k) := by
  induction a with
  | nil => rw [List.nil_append, show lastVal [] k = none from rfl, Option.or_none]
  | cons p a ih =>
      have h1 : lastVal (p :: (a ++ b)) k
          = (lastVal (a ++ b) k).or (if p.1 = k then some p.2 else none) := rfl
      have h2 : lastVal (p :: a) k
          = (lastVal a k).or (if p.1 = k then some p.2 else none) := rfl
      rw [List.cons_append, h1, ih, h2]
      cases lastVal b k <;> cases lastVal a k <;>
        simp only [Option.none_or, Option.or_some, Option.or_none]

theorem lastVal_optSet_self (k : String) (o : Option JVal) :
    lastVal (optSet k o) k = o := by
  cases o with
  | none => rfl
  | some v => show (none : Option JVal).or (if k = k then some v else none) = some v
              rw [if_pos rfl, Option.none_or]

theorem lastVal_optSet_ne (k k' : String) (o : Option JVal) (h : k' ≠ k) :
    lastVal (optSet k o) k' = none := by
  cases o with
  | none => rfl
  | some v => show (none : Option JVal).or (if k = k' then some v else none) = none
              rw [if_neg (fun hh => h hh.symm), Option.none_or]

theorem lastVal_single_self (k : String) (v : JVal) :
    lastVal [(k, v)] k = some v := by
  show (none : Option JVal).or (if k = k then some v else none) = some v
  rw [if_pos rfl, Option.none_or]

theorem lastVal_single_ne (k k' : String) (v : JVal) (h : k' ≠ k) :
    lastVal [(k, v)] k' = none := by
  show (none : Option JVal).or (if k = k' then some v else none) = none
  rw [if_neg (fun hh => h hh.symm), Option.none_or]

/-- A `find?` hit satisfies its predicate (specialised to `getItem`). -/
theorem keyMatches_of_getItem {t : Table} {pk sk : String} {it : Item}
    (h : getItem t pk sk = some it) : keyMatches it pk sk = true := by
  unfold getItem at h
  have h2 := List.find?_some h
  exact h2

theorem getAttr_of_keyMatches {it : Item} {pk sk : String}
    (h : keyMatches it pk sk = true) :
    getAttr it "PK" = some (JVal.str pk) ∧ getAttr it "SK" = some (JVal.str sk) := by
  unfold keyMatches at h
  rw [Bool.and_eq_true] at h
  exact ⟨by simpa using h.1, by simpa using h.2⟩

theorem getItem_cons (x : Item) (t : Table) (pk sk : String) :
    getItem (x :: t) pk sk
      = if keyMatches x pk sk = true then some x else getItem t pk sk := by
  by_cases hx : keyMatches x pk sk = true
  · rw [if_pos hx]
    show List.find? (fun it => keyMatches it pk sk) (x :: t) = some x
    exact List.find?_cons_of_pos _ hx
  · rw [if_neg hx]
    show List.find? (fun it => keyMatches it pk sk) (x :: t)
      = List.find? (fun it => keyMatches it pk sk) t
    exact List.find?_cons_of_neg _ hx

/-- Replacing the record at a key, when the replacement still carries that
key, makes the replacement the record found at the key. -/
theorem getItem_replaceItem {t : Table} {pk sk : String} {it it' : Item}
    (h : getItem t pk sk = some it) (h' : keyMatches it' pk sk = true) :
    getItem (replaceItem t pk sk it') pk sk = some it' := by
  induction t with
  | nil => simp [getItem] at h
  | cons x t ih =>
      rw [getItem_cons] at h
      by_cases hx : keyMatches x pk sk = true
      · show getItem ((if keyMatches x pk sk = true then it' else x) :: replaceItem t pk sk it') pk sk = some it'
        rw [if_pos hx, getItem_cons, if_pos h']
      · rw [if_neg hx] at h
        show getItem ((if keyMatches x pk sk = true then it' else x) :: replaceItem t pk sk it') pk sk = some it'
        rw [if_neg hx, getItem_cons, if_neg hx]
        exact ih h

theorem getAttr_eq_none_iff (it : Item) (k : String) :
    getAttr it k = none ↔ ∀ p ∈ it, p.1 ≠ k := by
  unfold getAttr
  rw [Option.map_eq_none']
  rw [List.find?_eq_none]
  constructor
  · intro h p hp
    have := h p hp
    simpa using this
  · intro h p hp
    simpa using h p hp

theorem getAttr_eq_none_of_not_mem_keys {it : Item} {k : String}
    (h : k ∉ it.map Prod.fst) : getAttr it k = none := by
  rw [getAttr_eq_none_iff]
  intro q hq hq1
  exact h (hq1 ▸ List.mem_map_of_mem Prod.fst hq)

theorem getAttr_cons' (k1 : String) (v1 : JVal) (it : Item) (k : String) :
    getAttr ((k1, v1) :: it) k = if k1 = k then some v1 else getAttr it k :=
  getAttr_cons (k1, v1) it k

theorem compact_cons_null (k1 : String) (l : Item) :
    compact ((k1, JVal.null) :: l) = compact l := rfl

theorem compact_cons_str (k1 s : String) (l : Item) :
    compact ((k1, JVal.str s) :: l) = (k1, JVal.str s) :: compact l := rfl

theorem compact_cons_date (k1 : String) (d : Int) (l : Item) :
    compact ((k1, JVal.date d) :: l) = (k1, JVal.date d) :: compact l := rfl

theorem compact_cons_num (k1 : String) (n : Int) (l : Item) :
    compact ((k1, JVal.num n) :: l) =
      (if tsKey k1 then (k1, JVal.date n) else (k1, JVal.num n)) :: compact l := by
  by_cases ht : tsKey k1 = true
  · unfold compact
    rw [List.filterMap_cons]
    simp [ht]
  · have ht' : tsKey k1 = false := Bool.eq_false_iff.mpr ht
    unfold compact
    rw [List.filterMap_cons]
    simp [ht']

/-- What `compact` does to each attribute, for items with distinct attribute
names (all items built by the store have distinct names). -/
theorem getAttr_compact (it : Item) (k : String)
    (hnd : (it.map Prod.fst).Nodup) :
    getAttr (compact it) k =
      match getAttr it k with
      | some JVal.null => none
      | some (JVal.num n) =>
          some (if tsKey k then JVal.date n else JVal.num n)
      | some v => some v
      | none => none := by
  induction it with
  | nil => rfl
  | cons p it ih =>
      obtain ⟨k1, v1⟩ := p
      rw [List.map_cons, List.nodup_cons] at hnd
      have hk1 : k1 ∉ List.map Prod.fst it := hnd.1
      have ihh := ih hnd.2
      rw [getAttr_cons']
      cases v1 with
      | null =>
          rw [compact_cons_null]
          by_cases hk : k1 = k
          · subst hk
            rw [if_pos rfl, ihh, getAttr_eq_none_of_not_mem_keys hk1]
          · rw [if_neg hk]
            exact ihh
      | num n =>
          rw [compact_cons_num]
          by_cases hk : k1 = k
          · subst hk
            by_cases ht : tsKey k1 = true
            · rw [if_pos ht, getAttr_cons', if_pos rfl, if_pos rfl]
              simp [ht]
            · have ht' : tsKey k1 = false := Bool.eq_false_iff.mpr ht
              rw [ht']
              simp [getAttr_cons', ht']
          · by_cases ht : tsKey k1 = true
            · rw [if_pos ht, getAttr_cons', if_neg hk, if_neg hk]
              exact ihh
            · have ht' : tsKey k1 = false := Bool.eq_false_iff.mpr ht
              rw [ht']
              simp only [Bool.false_eq_true, if_false]
              rw [getAttr_cons', if_neg hk, if_neg hk]
              exact ihh
      | str s =>
          rw [compact_cons_str]
          by_cases hk : k1 = k
          · subst hk
            rw [if_pos rfl, getAttr_cons', if_pos rfl]
          · rw [if_neg hk, getAttr_cons', if_neg hk]
            exact ihh
      | date d =>
          rw [compact_cons_date]
          by_cases hk : k1 = k
          · subst hk
            rw [if_pos rfl, getAttr_cons', if_pos rfl]
          · rw [if_neg hk, getAttr_cons', if_neg hk]
            exact ihh

theorem getAttr_compact_num {it : Item} {k : String} {n : Int}
    (hnd : (it.map Prod.fst).Nodup) (h : getAttr it k = some (JVal.num n)) :
    getAttr (compact it) k = some (if tsKey k then JVal.date n else JVal.num n) := by
  rw [getAttr_compact it k hnd, h]

theorem getAttr_compact_str {it : Item} {k : String} {s : String}
    (hnd : (it.map Prod.fst).Nodup) (h : getAttr it k = some (JVal.str s)) :
    getAttr (compact it) k = some (JVal.str s) := by
  rw [getAttr_compact it k hnd, h]

theorem getAttr_compact_null {it : Item} {k : String}
    (hnd : (it.map Prod.fst).Nodup) (h : getAttr it k = some JVal.null) :
    getAttr (compact it) k = none := by
  rw [getAttr_compact it k hnd, h]

/-! ## Claims with direct evaluations: C3, C8, C10 -/

/-- Claim C3.  The spec requires a backend failure inside
`hooks.getByToken` to propagate to the caller distinctly from NotFound.
The source instead catches the failure, substitutes an empty `Items` list
and throws `Hook not found for token` with status 404: every backend
failure is masked as NotFound.  The claim is right and the code is wrong
(the spec flags this very path as a defect to avoid). -/
theorem C3_getByToken_masks_backend_failure :
    (∀ (token msg : String), hooks_getByToken token (Except.error msg)
      = Except.error ⟨"Hook not found for token: " ++ token, 404⟩) ∧
    hooks_getByToken "t1" (Except.error "connection reset")
      = Except.error ⟨"Hook not found for token: t1", 404⟩ :=
  ⟨fun _ _ => rfl, rfl⟩

/-- Claim C8.  The claim says `runs.cancel`/`runs.pause` fail NotFound when
the run is absent.  The code issues an unconditional `UpdateCommand`, which
upserts: on an absent run id it creates a phantom record holding only the
key attributes plus the SET values, and returns it with `Except.ok` — the
`if (!Attributes)` NotFound guard never fires. -/
theorem C8_cancel_pause_upsert_phantom :
    (runs_cancel [] "r1" 5).1 = Except.ok
      [("PK", JVal.str "RUN#r1"), ("SK", JVal.str "RUN#METADATA"),
       ("status", JVal.str "cancelled"), ("completedAt", JVal.date 5),
       ("updatedAt", JVal.date 5)] ∧
    getItem (runs_cancel [] "r1" 5).2 (runPK "r1") runMetaSK =
      some [("PK", JVal.str "RUN#r1"), ("SK", JVal.str "RUN#METADATA"),
       ("status", JVal.str "cancelled"), ("completedAt", JVal.num 5),
       ("updatedAt", JVal.num 5)] ∧
    (runs_pause [] "r1" 5).1 = Except.ok
      [("PK", JVal.str "RUN#r1"), ("SK", JVal.str "RUN#METADATA"),
       ("status", JVal.str "paused"), ("updatedAt", JVal.date 5)] ∧
    getItem (runs_pause [] "r1" 5).2 (runPK "r1") runMetaSK ≠ none :=
  ⟨rfl, rfl, rfl, by decide⟩

/-- Claim C10.  The logging proxy returns exactly the wrapped method's
outcome (result or error) and final store state; wrapping a store method —
here also instantiated at `runs.get` — changes no observable result. -/
theorem C10_loggerProxy_transparent :
    (∀ (α β : Type) (pfx mName : String)
        (m : α → Table → Except WError β × Table) (a : α) (t : Table),
      (loggerProxy pfx mName m a t).result = m a t) ∧
    (∀ (t : Table) (id : String),
      (loggerProxy "runs" "get"
        (fun (i : String) (s : Table) => (runs_get s i, s)) id t).result
        = (runs_get t id, t)) :=
  ⟨fun _ _ _ _ _ _ _ => rfl, fun _ _ => rfl⟩

/-! ## Claim C2: resume only from paused -/

/-- Claim C2.  `runs.resume` succeeds exactly when the run exists with
status `paused` (setting status `running` and refreshing `updatedAt`); when
the run is absent, or exists with any other status (`running`, `pending` or
a terminal status), it fails with the 404 `Paused run not found` error and
the table — hence the stored status — is unchanged. -/
theorem C2_resume_only_from_paused :
    (∀ (t : Table) (id : String) (now : Int) (cur : Item),
      getItem t (runPK id) runMetaSK = some cur →
      getAttr cur "status" = some (JVal.str "paused") →
      ∃ cur', (runs_resume t id now).1 = Except.ok (compact cur') ∧
        getItem (runs_resume t id now).2 (runPK id) runMetaSK = some cur' ∧
        getAttr cur' "status" = some (JVal.str "running") ∧
        getAttr cur' "updatedAt" = some (JVal.num now)) ∧
    (∀ (t : Table) (id : String) (now : Int) (cur : Item),
      getItem t (runPK id) runMetaSK = some cur →
      getAttr cur "status" ≠ some (JVal.str "paused") →
      runs_resume t id now
        = (Except.error ⟨"Paused run not found: " ++ id, 404⟩, t)) ∧
    (∀ (t : Table) (id : String) (now : Int),
      getItem t (runPK id) runMetaSK = none →
      runs_resume t id now
        = (Except.error ⟨"Paused run not found: " ++ id, 404⟩, t)) := by
  refine ⟨?_, ?_, ?_⟩
  · intro t id now cur hget hst
    have hcond : (getAttr cur "status" == some (JVal.str "paused")) = true := by
      rw [hst]
      rfl
    have hkm := keyMatches_of_getItem hget
    have hattrs := getAttr_of_keyMatches hkm
    set cur' := applySets cur
      [("status", JVal.str "running"), ("updatedAt", JVal.num now)] with hcur'
    have hres : runs_resume t id now
        = (Except.ok (compact cur'), replaceItem t (runPK id) runMetaSK cur') := by
      simp only [runs_resume, hget]
      rw [if_pos hcond]
    have hsets_pk : lastVal
        [("status", JVal.str "running"), ("updatedAt", JVal.num now)] "PK" = none := by
      rfl
    have hsets_sk : lastVal
        [("status", JVal.str "running"), ("updatedAt", JVal.num now)] "SK" = none := by
      rfl
    have hpk : getAttr cur' "PK" = some (JVal.str (runPK id)) := by
      rw [hcur', getAttr_applySets, hsets_pk, Option.none_or, hattrs.1]
    have hsk : getAttr cur' "SK" = some (JVal.str runMetaSK) := by
      rw [hcur', getAttr_applySets, hsets_sk, Option.none_or, hattrs.2]
    have hkm' : keyMatches cur' (runPK id) runMetaSK = true := by
      unfold keyMatches
      rw [hpk, hsk]
      rw [Bool.and_eq_true]
      exact ⟨by simp, by simp⟩
    refine ⟨cur', ?_, ?_, ?_, ?_⟩
    · rw [hres]
    · rw [hres]
      exact getItem_replaceItem hget hkm'
    · rw [hcur', getAttr_applySets]
      rfl
    · rw [hcur', getAttr_applySets]
      rfl
  · intro t id now cur hget hst
    have hcond : (getAttr cur "status" == some (JVal.str "paused")) = false := by
      cases hb : (getAttr cur "status" == some (JVal.str "paused")) with
      | false => rfl
      | true => exact absurd (by simpa using hb) hst
    simp [runs_resume, hget, hcond]
  · intro t id now hget
    simp [runs_resume, hget]

/-- Witness for C2 at a concrete store: a paused run resumes to `running`,
and calling `resume` on the same run while it is `pending` fails with the
`Paused run not found` error leaving the table unchanged. -/
theorem C2_resume_only_from_paused_witness :
    (∃ cur', (runs_resume
        [[("PK", JVal.str "RUN#r1"), ("SK", JVal.str "RUN#METADATA"),
          ("status", JVal.str "paused"), ("createdAt", JVal.num 3)]] "r1" 9).1
        = Except.ok (compact cur') ∧
      getItem (runs_resume
        [[("PK", JVal.str "RUN#r1"), ("SK", JVal.str "RUN#METADATA"),
          ("status", JVal.str "paused"), ("createdAt", JVal.num 3)]] "r1" 9).2
        (runPK "r1") runMetaSK = some cur' ∧
      getAttr cur' "status" = some (JVal.str "running") ∧
      getAttr cur' "updatedAt" = some (JVal.num 9)) ∧
    runs_resume
        [[("PK", JVal.str "RUN#r2"), ("SK", JVal.str "RUN#METADATA"),
          ("status", JVal.str "pending"), ("createdAt", JVal.num 3)]] "r2" 9
      = (Except.error ⟨"Paused run not found: " ++ "r2", 404⟩,
         [[("PK", JVal.str "RUN#r2"), ("SK", JVal.str "RUN#METADATA"),
           ("status", JVal.str "pending"), ("createdAt", JVal.num 3)]]) ∧
    runs_resume [] "r3" 9
      = (Except.error ⟨"Paused run not found: " ++ "r3", 404⟩, []) := by
  refine ⟨?_, ?_, ?_⟩
  · exact C2_resume_only_from_paused.1
      [[("PK", JVal.str "RUN#r1"), ("SK", JVal.str "RUN#METADATA"),
        ("status", JVal.str "paused"), ("createdAt", JVal.num 3)]] "r1" 9
      [("PK", JVal.str "RUN#r1"), ("SK", JVal.str "RUN#METADATA"),
        ("status", JVal.str "paused"), ("createdAt", JVal.num 3)]
      (by decide) (by decide)
  · exact C2_resume_only_from_paused.2.1
      [[("PK", JVal.str "RUN#r2"), ("SK", JVal.str "RUN#METADATA"),
        ("status", JVal.str "pending"), ("createdAt", JVal.num 3)]] "r2" 9
      [("PK", JVal.str "RUN#r2"), ("SK", JVal.str "RUN#METADATA"),
        ("status", JVal.str "pending"), ("createdAt", JVal.num 3)]
      (by decide) (by decide)
  · exact C2_resume_only_from_paused.2.2 [] "r3" 9 (by decide)

/-! ## Claims C4 and C5: create/get roundtrip and duplicate-create conflict -/

/-- Claim C4.  For every valid creation input, `create` followed by `get` on
the same identifier returns exactly the entity `create` returned, for runs,
steps and hooks; the projected entity has its epoch-millisecond timestamps
converted to instants and null-valued fields (e.g. an absent
`executionContext`) entirely omitted.  Hook lookup is by the global hook-id
index, so the hook id must be globally fresh, as the spec's invariant
requires. -/
theorem C4_create_get_roundtrip :
    (∀ (t : Table) (id wf : String) (input : JVal) (ec : Option JVal)
        (dep : JVal) (now : Int),
      keyExists t (runPK id) runMetaSK = false →
      ∃ e, (runs_create t id wf input ec dep now).1 = Except.ok e ∧
        runs_get (runs_create t id wf input ec dep now).2 id = Except.ok e ∧
        getAttr e "createdAt" = some (JVal.date now) ∧
        getAttr e "updatedAt" = some (JVal.date now) ∧
        getAttr e "status" = some (JVal.str "pending") ∧
        (ec = none → getAttr e "executionContext" = none)) ∧
    (∀ (t : Table) (runId stepId : String) (stepName input : JVal) (now : Int),
      runId ≠ "" →
      keyExists t (runPK runId) (stepSK stepId) = false →
      ∃ e, (steps_create t runId stepId stepName input now).1 = Except.ok e ∧
        steps_get (steps_create t runId stepId stepName input now).2 runId stepId
          = Except.ok e ∧
        getAttr e "createdAt" = some (JVal.date now) ∧
        getAttr e "status" = some (JVal.str "pending") ∧
        getAttr e "attempt" = some (JVal.num 1)) ∧
    (∀ (t : Table) (runId hookId token : String) (now : Int),
      keyExists t (runPK runId) (hookSK hookId) = false →
      (∀ it ∈ t, getAttr it "hookId" ≠ some (JVal.str hookId)) →
      ∃ e, (hooks_create t runId hookId token now).1 = Except.ok e ∧
        hooks_get (hooks_create t runId hookId token now).2 hookId = Except.ok e ∧
        getAttr e "createdAt" = some (JVal.date now) ∧
        getAttr e "token" = some (JVal.str token)) := by
  refine ⟨?_, ?_, ?_⟩
  · intro t id wf input ec dep now hfresh
    set item : Item :=
      [("PK", JVal.str (runPK id)), ("SK", JVal.str runMetaSK),
       ("entityType", JVal.str "Run"), ("runId", JVal.str id),
       ("workflowName", JVal.str wf), ("input", input),
       ("executionContext", ec.getD JVal.null),
       ("deploymentId", dep), ("status", JVal.str "pending"),
       ("createdAt", JVal.num now), ("updatedAt", JVal.num now)] with hitem
    have hcreate : runs_create t id wf input ec dep now
        = (Except.ok (compact item), item :: t) := by
      simp [runs_create, hfresh, hitem]
    have hnd : (item.map Prod.fst).Nodup := by
      rw [hitem]
      show (["PK", "SK", "entityType", "runId", "workflowName", "input",
        "executionContext", "deploymentId", "status", "createdAt",
        "updatedAt"] : List String).Nodup
      decide
    have hkm : keyMatches item (runPK id) runMetaSK = true := by
      rw [hitem]
      simp [keyMatches, getAttr_cons']
    have hget2 : getItem (item :: t) (runPK id) runMetaSK = some item := by
      rw [getItem_cons, if_pos hkm]
    have hgetrun : runs_get (item :: t) id = Except.ok (compact item) := by
      simp [runs_get, hget2]
    have hcre : getAttr item "createdAt" = some (JVal.num now) := by
      rw [hitem]
      simp [getAttr_cons']
    have hupd : getAttr item "updatedAt" = some (JVal.num now) := by
      rw [hitem]
      simp [getAttr_cons']
    have hstatus : getAttr item "status" = some (JVal.str "pending") := by
      rw [hitem]
      simp [getAttr_cons']
    refine ⟨compact item, by rw [hcreate], by rw [hcreate]; exact hgetrun, ?_, ?_, ?_, ?_⟩
    · rw [getAttr_compact_num hnd hcre]
      rfl
    · rw [getAttr_compact_num hnd hupd]
      rfl
    · exact getAttr_compact_str hnd hstatus
    · intro hec
      have hecattr : getAttr item "executionContext" = some JVal.null := by
        rw [hitem, hec]
        simp [getAttr_cons']
      exact getAttr_compact_null hnd hecattr
  · intro t runId stepId stepName input now hrid hfresh
    set item : Item :=
      [("PK", JVal.str (runPK runId)), ("SK", JVal.str (stepSK stepId)),
       ("entityType", JVal.str "Step"), ("runId", JVal.str runId),
       ("stepId", JVal.str stepId), ("stepName", stepName), ("input", input),
       ("status", JVal.str "pending"), ("attempt", JVal.num 1),
       ("createdAt", JVal.num now), ("updatedAt", JVal.num now)] with hitem
    have hcreate : steps_create t runId stepId stepName input now
        = (Except.ok (compact item), item :: t) := by
      simp [steps_create, hfresh, hitem]
    have hnd : (item.map Prod.fst).Nodup := by
      rw [hitem]
      show (["PK", "SK", "entityType", "runId", "stepId", "stepName", "input",
        "status", "attempt", "createdAt", "updatedAt"] : List String).Nodup
      decide
    have hkm : keyMatches item (runPK runId) (stepSK stepId) = true := by
      rw [hitem]
      simp [keyMatches, getAttr_cons']
    have hget2 : getItem (item :: t) (runPK runId) (stepSK stepId) = some item := by
      rw [getItem_cons, if_pos hkm]
    have hridb : (runId == "") = false := by
      simp [hrid]
    have hgetstep : steps_get (item :: t) runId stepId = Except.ok (compact item) := by
      simp [steps_get, hridb, hget2]
    have hcre : getAttr item "createdAt" = some (JVal.num now) := by
      rw [hitem]
      simp [getAttr_cons']
    have hstatus : getAttr item "status" = some (JVal.str "pending") := by
      rw [hitem]
      simp [getAttr_cons']
    have hatt : getAttr item "attempt" = some (JVal.num 1) := by
      rw [hitem]
      simp [getAttr_cons']
    refine ⟨compact item, by rw [hcreate], by rw [hcreate]; exact hgetstep, ?_, ?_, ?_⟩
    · rw [getAttr_compact_num hnd hcre]
      rfl
    · exact getAttr_compact_str hnd hstatus
    · rw [getAttr_compact_num hnd hatt]
      rfl
  · intro t runId hookId token now hfresh huniq
    set item : Item :=
      [("PK", JVal.str (runPK runId)), ("SK", JVal.str (hookSK hookId)),
       ("entityType", JVal.str "Hook"), ("runId", JVal.str runId),
       ("hookId", JVal.str hookId), ("token", JVal.str token),
       ("ownerId", JVal.str ""), ("projectId", JVal.str ""),
       ("environment", JVal.str ""), ("createdAt", JVal.num now)] with hitem
    have hcreate : hooks_create t runId hookId token now
        = (Except.ok (compact item), item :: t) := by
      simp [hooks_create, hfresh, hitem]
    have hnd : (item.map Prod.fst).Nodup := by
      rw [hitem]
      show (["PK", "SK", "entityType", "runId", "hookId", "token", "ownerId",
        "projectId", "environment", "createdAt"] : List String).Nodup
      decide
    have hcond : (getAttr item "hookId" == some (JVal.str hookId)) = true := by
      rw [hitem]
      simp [getAttr_cons']
    have hfilter : (item :: t).filter
        (fun it => getAttr it "hookId" == some (JVal.str hookId)) = [item] := by
      have htail : t.filter
          (fun it => getAttr it "hookId" == some (JVal.str hookId)) = [] := by
        rw [List.filter_eq_nil_iff]
        intro it hit
        simp [huniq it hit]
      simp [List.filter_cons, hcond, htail]
    have hq : hookIdQuery (item :: t) hookId = [item] := by
      unfold hookIdQuery
      rw [hfilter]
      rfl
    have hgethook : hooks_get (item :: t) hookId = Except.ok (compact item) := by
      simp [hooks_get, hq]
    have hcre : getAttr item "createdAt" = some (JVal.num now) := by
      rw [hitem]
      simp [getAttr_cons']
    have htok : getAttr item "token" = some (JVal.str token) := by
      rw [hitem]
      simp [getAttr_cons']
    refine ⟨compact item, by rw [hcreate], by rw [hcreate]; exact hgethook, ?_, ?_⟩
    · rw [getAttr_compact_num hnd hcre]
      rfl
    · exact getAttr_compact_str hnd htok

/-- Witness for C4 on an empty store: create run `r1` (no execution
context), step `s1` under run `r1`, hook `h1` with token `t1`; each `get`
returns the created entity with instant timestamps and the null field
omitted. -/
theorem C4_create_get_roundtrip_witness :
    (∃ e, (runs_create [] "r1" "wf" (JVal.str "in") none (JVal.str "d") 5).1
        = Except.ok e ∧
      runs_get (runs_create [] "r1" "wf" (JVal.str "in") none (JVal.str "d") 5).2 "r1"
        = Except.ok e ∧
      getAttr e "createdAt" = some (JVal.date 5) ∧
      getAttr e "updatedAt" = some (JVal.date 5) ∧
      getAttr e "status" = some (JVal.str "pending") ∧
      (none = (none : Option JVal) → getAttr e "executionContext" = none)) ∧
    (∃ e, (steps_create [] "r1" "s1" (JVal.str "n") (JVal.str "i") 6).1
        = Except.ok e ∧
      steps_get (steps_create [] "r1" "s1" (JVal.str "n") (JVal.str "i") 6).2 "r1" "s1"
        = Except.ok e ∧
      getAttr e "createdAt" = some (JVal.date 6) ∧
      getAttr e "status" = some (JVal.str "pending") ∧
      getAttr e "attempt" = some (JVal.num 1)) ∧
    (∃ e, (hooks_create [] "r1" "h1" "t1" 7).1 = Except.ok e ∧
      hooks_get (hooks_create [] "r1" "h1" "t1" 7).2 "h1" = Except.ok e ∧
      getAttr e "createdAt" = some (JVal.date 7) ∧
      getAttr e "token" = some (JVal.str "t1")) := by
  refine ⟨?_, ?_, ?_⟩
  · exact C4_create_get_roundtrip.1 [] "r1" "wf" (JVal.str "in") none
      (JVal.str "d") 5 (by decide)
  · exact C4_create_get_roundtrip.2.1 [] "r1" "s1" (JVal.str "n") (JVal.str "i") 6
      (by decide) (by decide)
  · exact C4_create_get_roundtrip.2.2 [] "r1" "h1" "t1" 7 (by decide)
      (by intro it hit; exact absurd hit (List.not_mem_nil it))

/-- Claim C5.  Creating a step (or a hook) twice with the same
caller-supplied identifier fails the second time with the 409 Conflict
error, leaves the table untouched, and the record written by the first call
is still the one stored at the key. -/
theorem C5_duplicate_create_conflict :
    (∀ (t : Table) (runId stepId : String) (n1 i1 n2 i2 : JVal)
        (now1 now2 : Int),
      keyExists t (runPK runId) (stepSK stepId) = false →
      ∃ it1,
        getItem (steps_create t runId stepId n1 i1 now1).2
          (runPK runId) (stepSK stepId) = some it1 ∧
        steps_create (steps_create t runId stepId n1 i1 now1).2
            runId stepId n2 i2 now2
          = (Except.error ⟨"Step " ++ stepId ++ " already exists", 409⟩,
             (steps_create t runId stepId n1 i1 now1).2) ∧
        getItem (steps_create (steps_create t runId stepId n1 i1 now1).2
            runId stepId n2 i2 now2).2 (runPK runId) (stepSK stepId)
          = some it1) ∧
    (∀ (t : Table) (runId hookId tok1 tok2 : String) (now1 now2 : Int),
      keyExists t (runPK runId) (hookSK hookId) = false →
      ∃ it1,
        getItem (hooks_create t runId hookId tok1 now1).2
          (runPK runId) (hookSK hookId) = some it1 ∧
        hooks_create (hooks_create t runId hookId tok1 now1).2
            runId hookId tok2 now2
          = (Except.error ⟨"Hook " ++ hookId ++ " already exists", 409⟩,
             (hooks_create t runId hookId tok1 now1).2) ∧
        getItem (hooks_create (hooks_create t runId hookId tok1 now1).2
            runId hookId tok2 now2).2 (runPK runId) (hookSK hookId)
          = some it1) := by
  constructor
  · intro t runId stepId n1 i1 n2 i2 now1 now2 hfresh
    set item : Item :=
      [("PK", JVal.str (runPK runId)), ("SK", JVal.str (stepSK stepId)),
       ("entityType", JVal.str "Step"), ("runId", JVal.str runId),
       ("stepId", JVal.str stepId), ("stepName", n1), ("input", i1),
       ("status", JVal.str "pending"), ("attempt", JVal.num 1),
       ("createdAt", JVal.num now1), ("updatedAt", JVal.num now1)] with hitem
    have hcreate : steps_create t runId stepId n1 i1 now1
        = (Except.ok (compact item), item :: t) := by
      simp [steps_create, hfresh, hitem]
    have hkm : keyMatches item (runPK runId) (stepSK stepId) = true := by
      rw [hitem]
      simp [keyMatches, getAttr_cons']
    have hget2 : getItem (item :: t) (runPK runId) (stepSK stepId) = some item := by
      rw [getItem_cons, if_pos hkm]
    have hexists : keyExists (item :: t) (runPK runId) (stepSK stepId) = true := by
      unfold keyExists
      rw [hget2]
      rfl
    have hsecond : steps_create (item :: t) runId stepId n2 i2 now2
        = (Except.error ⟨"Step " ++ stepId ++ " already exists", 409⟩, item :: t) := by
      simp [steps_create, hexists]
    refine ⟨item, ?_, ?_, ?_⟩
    · rw [hcreate]
      exact hget2
    · rw [hcreate]
      exact hsecond
    · rw [hcreate, hsecond]
      exact hget2
  · intro t runId hookId tok1 tok2 now1 now2 hfresh
    set item : Item :=
      [("PK", JVal.str (runPK runId)), ("SK", JVal.str (hookSK hookId)),
       ("entityType", JVal.str "Hook"), ("runId", JVal.str runId),
       ("hookId", JVal.str hookId), ("token", JVal.str tok1),
       ("ownerId", JVal.str ""), ("projectId", JVal.str ""),
       ("environment", JVal.str ""), ("createdAt", JVal.num now1)] with hitem
    have hcreate : hooks_create t runId hookId tok1 now1
        = (Except.ok (compact item), item :: t) := by
      simp [hooks_create, hfresh, hitem]
    have hkm : keyMatches item (runPK runId) (hookSK hookId) = true := by
      rw [hitem]
      simp [keyMatches, getAttr_cons']
    have hget2 : getItem (item :: t) (runPK runId) (hookSK hookId) = some item := by
      rw [getItem_cons, if_pos hkm]
    have hexists : keyExists (item :: t) (runPK runId) (hookSK hookId) = true := by
      unfold keyExists
      rw [hget2]
      rfl
    have hsecond : hooks_create (item :: t) runId hookId tok2 now2
        = (Except.error ⟨"Hook " ++ hookId ++ " already exists", 409⟩, item :: t) := by
      simp [hooks_create, hexists]
    refine ⟨item, ?_, ?_, ?_⟩
    · rw [hcreate]
      exact hget2
    · rw [hcreate]
      exact hsecond
    · rw [hcreate, hsecond]
      exact hget2

/-- Witness for C5: on an empty store, creating step (r1, s1) and hook
(r1, h1) twice each fails Conflict on the second call with the first record
intact. -/
theorem C5_duplicate_create_conflict_witness :
    (∃ it1,
      getItem (steps_create [] "r1" "s1" (JVal.str "n") (JVal.str "i") 1).2
        (runPK "r1") (stepSK "s1") = some it1 ∧
      steps_create (steps_create [] "r1" "s1" (JVal.str "n") (JVal.str "i") 1).2
          "r1" "s1" (JVal.str "n2") (JVal.str "i2") 2
        = (Except.error ⟨"Step " ++ "s1" ++ " already exists", 409⟩,
           (steps_create [] "r1" "s1" (JVal.str "n") (JVal.str "i") 1).2) ∧
      getItem (steps_create (steps_create [] "r1" "s1" (JVal.str "n") (JVal.str "i") 1).2
          "r1" "s1" (JVal.str "n2") (JVal.str "i2") 2).2
        (runPK "r1") (stepSK "s1") = some it1) ∧
    (∃ it1,
      getItem (hooks_create [] "r1" "h1" "t1" 1).2
        (runPK "r1") (hookSK "h1") = some it1 ∧
      hooks_create (hooks_create [] "r1" "h1" "t1" 1).2 "r1" "h1" "t2" 2
        = (Except.error ⟨"Hook " ++ "h1" ++ " already exists", 409⟩,
           (hooks_create [] "r1" "h1" "t1" 1).2) ∧
      getItem (hooks_create (hooks_create [] "r1" "h1" "t1" 1).2
          "r1" "h1" "t2" 2).2 (runPK "r1") (hookSK "h1") = some it1) := by
  constructor
  · exact C5_duplicate_create_conflict.1 [] "r1" "s1" (JVal.str "n")
      (JVal.str "i") (JVal.str "n2") (JVal.str "i2") 1 2 (by decide)
  · exact C5_duplicate_create_conflict.2 [] "r1" "h1" "t1" "t2" 1 2 (by decide)

/-! ## Update-expression computations for `runs.update` / `steps.update` -/

theorem lastVal_ite_cons_ne (c : Prop) [Decidable c] (k k' : String) (v : JVal)
    (h : k' ≠ k) : lastVal (if c then [(k, v)] else []) k' = none := by
  by_cases hc : c
  · rw [if_pos hc]
    exact lastVal_single_ne k k' v h
  · rw [if_neg hc]
    rfl

theorem lastVal_ite_cons_self (c : Prop) [Decidable c] (k : String) (v : JVal) :
    lastVal (if c then [(k, v)] else []) k = if c then some v else none := by
  by_cases hc : c
  · rw [if_pos hc, if_pos hc]
    exact lastVal_single_self k v
  · rw [if_neg hc, if_neg hc]
    rfl

theorem keyMatches_applySets {cur : Item} {pk sk : String}
    (S : List (String × JVal)) (hkm : keyMatches cur pk sk = true)
    (hpk : lastVal S "PK" = none) (hsk : lastVal S "SK" = none) :
    keyMatches (applySets cur S) pk sk = true := by
  have h := getAttr_of_keyMatches hkm
  unfold keyMatches
  rw [getAttr_applySets, hpk, Option.none_or, h.1,
    getAttr_applySets, hsk, Option.none_or, h.2]
  rw [Bool.and_eq_true]
  exact ⟨by simp, by simp⟩

/-- Unfolding of `runs.update` when the run exists. -/
theorem runs_update_some (t : Table) (id : String) (p : RunPatch) (now : Int)
    (cur : Item) (hget : getItem t (runPK id) runMetaSK = some cur) :
    runs_update t id p now =
      (Except.ok (compact (applySets cur
        (optSet "status" p.status ++ optSet "output" p.output ++
         optSet "error" p.error ++ optSet "errorCode" p.errorCode ++
         optSet "deploymentId" p.deploymentId ++
         optSet "executionContext" p.executionContext ++
         (if p.status == some (JVal.str "running") &&
             jsFalsy (getAttr cur "startedAt") then
           [("startedAt", JVal.num now)] else []) ++
         (if statusIn p.status ["completed", "failed", "cancelled"] then
           [("completedAt", JVal.num now)] else []) ++
         [("updatedAt", JVal.num now)]))),
       replaceItem t (runPK id) runMetaSK (applySets cur
        (optSet "status" p.status ++ optSet "output" p.output ++
         optSet "error" p.error ++ optSet "errorCode" p.errorCode ++
         optSet "deploymentId" p.deploymentId ++
         optSet "executionContext" p.executionContext ++
         (if p.status == some (JVal.str "running") &&
             jsFalsy (getAttr cur "startedAt") then
           [("startedAt", JVal.num now)] else []) ++
         (if statusIn p.status ["completed", "failed", "cancelled"] then
           [("completedAt", JVal.num now)] else []) ++
         [("updatedAt", JVal.num now)]))) := by
  simp only [runs_update, hget, updateItem]

/-- Unfolding of `steps.update` when the step exists. -/
theorem steps_update_some (t : Table) (runId stepId : String) (p : StepPatch)
    (now : Int) (cur : Item)
    (hget : getItem t (runPK runId) (stepSK stepId) = some cur) :
    steps_update t runId stepId p now =
      (Except.ok (compact (applySets cur
        (optSet "status" p.status ++ optSet "output" p.output ++
         optSet "error" p.error ++ optSet "errorCode" p.errorCode ++
         optSet "attempt" p.attempt ++
         (if p.status == some (JVal.str "running") &&
             jsFalsy (getAttr cur "startedAt") then
           [("startedAt", JVal.num now)] else []) ++
         (if statusIn p.status ["completed", "failed"] then
           [("completedAt", JVal.num now)] else []) ++
         [("updatedAt", JVal.num now)]))),
       replaceItem t (runPK runId) (stepSK stepId) (applySets cur
        (optSet "status" p.status ++ optSet "output" p.output ++
         optSet "error" p.error ++ optSet "errorCode" p.errorCode ++
         optSet "attempt" p.attempt ++
         (if p.status == some (JVal.str "running") &&
             jsFalsy (getAttr cur "startedAt") then
           [("startedAt", JVal.num now)] else []) ++
         (if statusIn p.status ["completed", "failed"] then
           [("completedAt", JVal.num now)] else []) ++
         [("updatedAt", JVal.num now)]))) := by
  simp only [steps_update, hget, updateItem]

/-- `startedAt` in the run update expression comes only from the
first-transition clause. -/
theorem runSets_lastVal_startedAt (p : RunPatch) (cur : Item) (now : Int) :
    lastVal
      (optSet "status" p.status ++ optSet "output" p.output ++
       optSet "error" p.error ++ optSet "errorCode" p.errorCode ++
       optSet "deploymentId" p.deploymentId ++
       optSet "executionContext" p.executionContext ++
       (if p.status == some (JVal.str "running") &&
           jsFalsy (getAttr cur "startedAt") then
         [("startedAt", JVal.num now)] else []) ++
       (if statusIn p.status ["completed", "failed", "cancelled"] then
         [("completedAt", JVal.num now)] else []) ++
       [("updatedAt", JVal.num now)]) "startedAt" =
      (if p.status == some (JVal.str "running") &&
          jsFalsy (getAttr cur "startedAt") then
        some (JVal.num now) else none) := by
  simp only [lastVal_append]
  rw [lastVal_single_ne _ _ _ (by decide), Option.none_or,
    lastVal_ite_cons_ne _ _ _ _ (by decide), Option.none_or,
    lastVal_ite_cons_self,
    lastVal_optSet_ne _ _ _ (by decide), lastVal_optSet_ne _ _ _ (by decide),
    lastVal_optSet_ne _ _ _ (by decide), lastVal_optSet_ne _ _ _ (by decide),
    lastVal_optSet_ne _ _ _ (by decide), lastVal_optSet_ne _ _ _ (by decide)]
  cases hc : (p.status == some (JVal.str "running") &&
      jsFalsy (getAttr cur "startedAt")) with
  | true => simp
  | false => simp

/-- `completedAt` in the run update expression comes only from the
terminal-status clause. -/
theorem runSets_lastVal_completedAt (p : RunPatch) (cur : Item) (now : Int) :
    lastVal
      (optSet "status" p.status ++ optSet "output" p.output ++
       optSet "error" p.error ++ optSet "errorCode" p.errorCode ++
       optSet "deploymentId" p.deploymentId ++
       optSet "executionContext" p.executionContext ++
       (if p.status == some (JVal.str "running") &&
           jsFalsy (getAttr cur "startedAt") then
         [("startedAt", JVal.num now)] else []) ++
       (if statusIn p.status ["completed", "failed", "cancelled"] then
         [("completedAt", JVal.num now)] else []) ++
       [("updatedAt", JVal.num now)]) "completedAt" =
      (if statusIn p.status ["completed", "failed", "cancelled"] then
        some (JVal.num now) else none) := by
  simp only [lastVal_append]
  rw [lastVal_single_ne _ _ _ (by decide), Option.none_or,
    lastVal_ite_cons_self,
    lastVal_ite_cons_ne _ _ _ _ (by decide),
    lastVal_optSet_ne _ _ _ (by decide), lastVal_optSet_ne _ _ _ (by decide),
    lastVal_optSet_ne _ _ _ (by decide), lastVal_optSet_ne _ _ _ (by decide),
    lastVal_optSet_ne _ _ _ (by decide), lastVal_optSet_ne _ _ _ (by decide)]
  cases hc : statusIn p.status ["completed", "failed", "cancelled"] with
  | true => simp
  | false => simp

/-- Attributes other than the nine run update-expression targets are not
touched by the run update expression. -/
theorem runSets_lastVal_other (p : RunPatch) (cur : Item) (now : Int)
    (k : String) (h1 : k ≠ "status") (h2 : k ≠ "output") (h3 : k ≠ "error")
    (h4 : k ≠ "errorCode") (h5 : k ≠ "deploymentId")
    (h6 : k ≠ "executionContext") (h7 : k ≠ "startedAt")
    (h8 : k ≠ "completedAt") (h9 : k ≠ "updatedAt") :
    lastVal
      (optSet "status" p.status ++ optSet "output" p.output ++
       optSet "error" p.error ++ optSet "errorCode" p.errorCode ++
       optSet "deploymentId" p.deploymentId ++
       optSet "executionContext" p.executionContext ++
       (if p.status == some (JVal.str "running") &&
           jsFalsy (getAttr cur "startedAt") then
         [("startedAt", JVal.num now)] else []) ++
       (if statusIn p.status ["completed", "failed", "cancelled"] then
         [("completedAt", JVal.num now)] else []) ++
       [("updatedAt", JVal.num now)]) k = none := by
  simp only [lastVal_append]
  rw [lastVal_single_ne _ _ _ h9, Option.none_or,
    lastVal_ite_cons_ne _ _ _ _ h8, Option.none_or,
    lastVal_ite_cons_ne _ _ _ _ h7, Option.none_or,
    lastVal_optSet_ne _ _ _ h6, Option.none_or,
    lastVal_optSet_ne _ _ _ h5, Option.none_or,
    lastVal_optSet_ne _ _ _ h4, Option.none_or,
    lastVal_optSet_ne _ _ _ h3, Option.none_or,
    lastVal_optSet_ne _ _ _ h2, Option.none_or,
    lastVal_optSet_ne _ _ _ h1]

/-- `startedAt` in the step update expression comes only from the
first-transition clause. -/
theorem stepSets_lastVal_startedAt (p : StepPatch) (cur : Item) (now : Int) :
    lastVal
      (optSet "status" p.status ++ optSet "output" p.output ++
       optSet "error" p.error ++ optSet "errorCode" p.errorCode ++
       optSet "attempt" p.attempt ++
       (if p.status == some (JVal.str "running") &&
           jsFalsy (getAttr cur "startedAt") then
         [("startedAt", JVal.num now)] else []) ++
       (if statusIn p.status ["completed", "failed"] then
         [("completedAt", JVal.num now)] else []) ++
       [("updatedAt", JVal.num now)]) "startedAt" =
      (if p.status == some (JVal.str "running") &&
          jsFalsy (getAttr cur "startedAt") then
        some (JVal.num now) else none) := by
  simp only [lastVal_append]
  rw [lastVal_single_ne _ _ _ (by decide), Option.none_or,
    lastVal_ite_cons_ne _ _ _ _ (by decide), Option.none_or,
    lastVal_ite_cons_self,
    lastVal_optSet_ne _ _ _ (by decide), lastVal_optSet_ne _ _ _ (by decide),
    lastVal_optSet_ne _ _ _ (by decide), lastVal_optSet_ne _ _ _ (by decide),
    lastVal_optSet_ne _ _ _ (by decide)]
  cases hc : (p.status == some (JVal.str "running") &&
      jsFalsy (getAttr cur "startedAt")) with
  | true => simp
  | false => simp

/-- `completedAt` in the step update expression comes only from the
terminal-status clause, whose list for steps is `completed`/`failed` with no
`cancelled`. -/
theorem stepSets_lastVal_completedAt (p : StepPatch) (cur : Item) (now : Int) :
    lastVal
      (optSet "status" p.status ++ optSet "output" p.output ++
       optSet "error" p.error ++ optSet "errorCode" p.errorCode ++
       optSet "attempt" p.attempt ++
       (if p.status == some (JVal.str "running") &&
           jsFalsy (getAttr cur "startedAt") then
         [("startedAt", JVal.num now)] else []) ++
       (if statusIn p.status ["completed", "failed"] then
         [("completedAt", JVal.num now)] else []) ++
       [("updatedAt", JVal.num now)]) "completedAt" =
      (if statusIn p.status ["completed", "failed"] then
        some (JVal.num now) else none) := by
  simp only [lastVal_append]
  rw [lastVal_single_ne _ _ _ (by decide), Option.none_or,
    lastVal_ite_cons_self,
    lastVal_ite_cons_ne _ _ _ _ (by decide),
    lastVal_optSet_ne _ _ _ (by decide), lastVal_optSet_ne _ _ _ (by decide),
    lastVal_optSet_ne _ _ _ (by decide), lastVal_optSet_ne _ _ _ (by decide),
    lastVal_optSet_ne _ _ _ (by decide)]
  cases hc : statusIn p.status ["completed", "failed"] with
  | true => simp
  | false => simp

/-- Attributes other than the eight step update-expression targets are not
touched by the step update expression. -/
theorem stepSets_lastVal_other (p : StepPatch) (cur : Item) (now : Int)
    (k : String) (h1 : k ≠ "status") (h2 : k ≠ "output") (h3 : k ≠ "error")
    (h4 : k ≠ "errorCode") (h5 : k ≠ "attempt") (h7 : k ≠ "startedAt")
    (h8 : k ≠ "completedAt") (h9 : k ≠ "updatedAt") :
    lastVal
      (optSet "status" p.status ++ optSet "output" p.output ++
       optSet "error" p.error ++ optSet "errorCode" p.errorCode ++
       optSet "attempt" p.attempt ++
       (if p.status == some (JVal.str "running") &&
           jsFalsy (getAttr cur "startedAt") then
         [("startedAt", JVal.num now)] else []) ++
       (if statusIn p.status ["completed", "failed"] then
         [("completedAt", JVal.num now)] else []) ++
       [("updatedAt", JVal.num now)]) k = none := by
  simp only [lastVal_append]
  rw [lastVal_single_ne _ _ _ h9, Option.none_or,
    lastVal_ite_cons_ne _ _ _ _ h8, Option.none_or,
    lastVal_ite_cons_ne _ _ _ _ h7, Option.none_or,
    lastVal_optSet_ne _ _ _ h5, Option.none_or,
    lastVal_optSet_ne _ _ _ h4, Option.none_or,
    lastVal_optSet_ne _ _ _ h3, Option.none_or,
    lastVal_optSet_ne _ _ _ h2, Option.none_or,
    lastVal_optSet_ne _ _ _ h1]

/-! ## Claims C6, C7, C9: update semantics -/

/-- Claim C6.  For runs and steps alike: an update with status `running`
sets `startedAt` to the call time when the stored record has none yet;
when the stored record already carries a (nonzero epoch) `startedAt`, an
update with status `running` leaves it unchanged; hence in a first
`running` update followed by a second one, `startedAt` keeps the first
call's time. -/
theorem C6_startedAt_set_once :
    (∀ (t : Table) (id : String) (p : RunPatch) (now : Int) (cur : Item),
      getItem t (runPK id) runMetaSK = some cur →
      getAttr cur "startedAt" = none →
      p.status = some (JVal.str "running") →
      ∃ cur', getItem (runs_update t id p now).2 (runPK id) runMetaSK = some cur' ∧
        getAttr cur' "startedAt" = some (JVal.num now)) ∧
    (∀ (t : Table) (id : String) (p : RunPatch) (now : Int) (cur : Item) (m : Int),
      getItem t (runPK id) runMetaSK = some cur →
      getAttr cur "startedAt" = some (JVal.num m) →
      m ≠ 0 →
      p.status = some (JVal.str "running") →
      ∃ cur', getItem (runs_update t id p now).2 (runPK id) runMetaSK = some cur' ∧
        getAttr cur' "startedAt" = some (JVal.num m)) ∧
    (∀ (t : Table) (id : String) (p1 p2 : RunPatch) (now1 now2 : Int) (cur : Item),
      getItem t (runPK id) runMetaSK = some cur →
      getAttr cur "startedAt" = none →
      p1.status = some (JVal.str "running") →
      p2.status = some (JVal.str "running") →
      now1 ≠ 0 →
      ∃ cur2, getItem (runs_update (runs_update t id p1 now1).2 id p2 now2).2
          (runPK id) runMetaSK = some cur2 ∧
        getAttr cur2 "startedAt" = some (JVal.num now1)) ∧
    (∀ (t : Table) (runId stepId : String) (p : StepPatch) (now : Int) (cur : Item),
      getItem t (runPK runId) (stepSK stepId) = some cur →
      getAttr cur "startedAt" = none →
      p.status = some (JVal.str "running") →
      ∃ cur', getItem (steps_update t runId stepId p now).2
          (runPK runId) (stepSK stepId) = some cur' ∧
        getAttr cur' "startedAt" = some (JVal.num now)) ∧
    (∀ (t : Table) (runId stepId : String) (p : StepPatch) (now : Int)
        (cur : Item) (m : Int),
      getItem t (runPK runId) (stepSK stepId) = some cur →
      getAttr cur "startedAt" = some (JVal.num m) →
      m ≠ 0 →
      p.status = some (JVal.str "running") →
      ∃ cur', getItem (steps_update t runId stepId p now).2
          (runPK runId) (stepSK stepId) = some cur' ∧
        getAttr cur' "startedAt" = some (JVal.num m)) ∧
    (∀ (t : Table) (runId stepId : String) (p1 p2 : StepPatch)
        (now1 now2 : Int) (cur : Item),
      getItem t (runPK runId) (stepSK stepId) = some cur →
      getAttr cur "startedAt" = none →
      p1.status = some (JVal.str "running") →
      p2.status = some (JVal.str "running") →
      now1 ≠ 0 →
      ∃ cur2, getItem (steps_update (steps_update t runId stepId p1 now1).2
          runId stepId p2 now2).2 (runPK runId) (stepSK stepId) = some cur2 ∧
        getAttr cur2 "startedAt" = some (JVal.num now1)) := by
  have runsA : ∀ (t : Table) (id : String) (p : RunPatch) (now : Int) (cur : Item),
      getItem t (runPK id) runMetaSK = some cur →
      getAttr cur "startedAt" = none →
      p.status = some (JVal.str "running") →
      ∃ cur', getItem (runs_update t id p now).2 (runPK id) runMetaSK = some cur' ∧
        getAttr cur' "startedAt" = some (JVal.num now) := by
    intro t id p now cur hget hst hp
    have hkm := keyMatches_of_getItem hget
    have hc1 : (p.status == some (JVal.str "running") &&
        jsFalsy (getAttr cur "startedAt")) = true := by
      rw [hp, hst]
      rfl
    have hkm1 := keyMatches_applySets _ hkm
      (runSets_lastVal_other p cur now "PK" (by decide) (by decide) (by decide)
        (by decide) (by decide) (by decide) (by decide) (by decide) (by decide))
      (runSets_lastVal_other p cur now "SK" (by decide) (by decide) (by decide)
        (by decide) (by decide) (by decide) (by decide) (by decide) (by decide))
    have hg1 := getItem_replaceItem hget hkm1
    simp only [runs_update_some t id p now cur hget]
    refine ⟨_, hg1, ?_⟩
    rw [getAttr_applySets, runSets_lastVal_startedAt, if_pos hc1, Option.or_some]
  have runsB : ∀ (t : Table) (id : String) (p : RunPatch) (now : Int)
      (cur : Item) (m : Int),
      getItem t (runPK id) runMetaSK = some cur →
      getAttr cur "startedAt" = some (JVal.num m) →
      m ≠ 0 →
      p.status = some (JVal.str "running") →
      ∃ cur', getItem (runs_update t id p now).2 (runPK id) runMetaSK = some cur' ∧
        getAttr cur' "startedAt" = some (JVal.num m) := by
    intro t id p now cur m hget hst hm hp
    have hkm := keyMatches_of_getItem hget
    have hfal : jsFalsy (getAttr cur "startedAt") = false := by
      rw [hst]
      simp [jsFalsy, hm]
    have hc1 : (p.status == some (JVal.str "running") &&
        jsFalsy (getAttr cur "startedAt")) = false := by
      rw [hfal, Bool.and_false]
    have hkm1 := keyMatches_applySets _ hkm
      (runSets_lastVal_other p cur now "PK" (by decide) (by decide) (by decide)
        (by decide) (by decide) (by decide) (by decide) (by decide) (by decide))
      (runSets_lastVal_other p cur now "SK" (by decide) (by decide) (by decide)
        (by decide) (by decide) (by decide) (by decide) (by decide) (by decide))
    have hg1 := getItem_replaceItem hget hkm1
    simp only [runs_update_some t id p now cur hget]
    refine ⟨_, hg1, ?_⟩
    rw [getAttr_applySets, runSets_lastVal_startedAt, if_neg (by simp [hc1]),
      Option.none_or, hst]
  have stepsA : ∀ (t : Table) (runId stepId : String) (p : StepPatch)
      (now : Int) (cur : Item),
      getItem t (runPK runId) (stepSK stepId) = some cur →
      getAttr cur "startedAt" = none →
      p.status = some (JVal.str "running") →
      ∃ cur', getItem (steps_update t runId stepId p now).2
          (runPK runId) (stepSK stepId) = some cur' ∧
        getAttr cur' "startedAt" = some (JVal.num now) := by
    intro t runId stepId p now cur hget hst hp
    have hkm := keyMatches_of_getItem hget
    have hc1 : (p.status == some (JVal.str "running") &&
        jsFalsy (getAttr cur "startedAt")) = true := by
      rw [hp, hst]
      rfl
    have hkm1 := keyMatches_applySets _ hkm
      (stepSets_lastVal_other p cur now "PK" (by decide) (by decide) (by decide)
        (by decide) (by decide) (by decide) (by decide) (by decide))
      (stepSets_lastVal_other p cur now "SK" (by decide) (by decide) (by decide)
        (by decide) (by decide) (by decide) (by decide) (by decide))
    have hg1 := getItem_replaceItem hget hkm1
    simp only [steps_update_some t runId stepId p now cur hget]
    refine ⟨_, hg1, ?_⟩
    rw [getAttr_applySets, stepSets_lastVal_startedAt, if_pos hc1, Option.or_some]
  have stepsB : ∀ (t : Table) (runId stepId : String) (p : StepPatch)
      (now : Int) (cur : Item) (m : Int),
      getItem t (runPK runId) (stepSK stepId) = some cur →
      getAttr cur "startedAt" = some (JVal.num m) →
      m ≠ 0 →
      p.status = some (JVal.str "running") →
      ∃ cur', getItem (steps_update t runId stepId p now).2
          (runPK runId) (stepSK stepId) = some cur' ∧
        getAttr cur' "startedAt" = some (JVal.num m) := by
    intro t runId stepId p now cur m hget hst hm hp
    have hkm := keyMatches_of_getItem hget
    have hfal : jsFalsy (getAttr cur "startedAt") = false := by
      rw [hst]
      simp [jsFalsy, hm]
    have hc1 : (p.status == some (JVal.str "running") &&
        jsFalsy (getAttr cur "startedAt")) = false := by
      rw [hfal, Bool.and_false]
    have hkm1 := keyMatches_applySets _ hkm
      (stepSets_lastVal_other p cur now "PK" (by decide) (by decide) (by decide)
        (by decide) (by decide) (by decide) (by decide) (by decide))
      (stepSets_lastVal_other p cur now "SK" (by decide) (by decide) (by decide)
        (by decide) (by decide) (by decide) (by decide) (by decide))
    have hg1 := getItem_replaceItem hget hkm1
    simp only [steps_update_some t runId stepId p now cur hget]
    refine ⟨_, hg1, ?_⟩
    rw [getAttr_applySets, stepSets_lastVal_startedAt, if_neg (by simp [hc1]),
      Option.none_or, hst]
  refine ⟨runsA, runsB, ?_, stepsA, stepsB, ?_⟩
  · intro t id p1 p2 now1 now2 cur hget hst hp1 hp2 hnow1
    obtain ⟨cur1, hg1, ha1⟩ := runsA t id p1 now1 cur hget hst hp1
    exact runsB (runs_update t id p1 now1).2 id p2 now2 cur1 now1 hg1 ha1 hnow1 hp2
  · intro t runId stepId p1 p2 now1 now2 cur hget hst hp1 hp2 hnow1
    obtain ⟨cur1, hg1, ha1⟩ := stepsA t runId stepId p1 now1 cur hget hst hp1
    exact stepsB (steps_update t runId stepId p1 now1).2 runId stepId p2 now2
      cur1 now1 hg1 ha1 hnow1 hp2

/-- Witness for C6: a run and a step without `startedAt` get it set to the
first `running` update's time (4), and a second `running` update at time 9
leaves it at 4. -/
theorem C6_startedAt_set_once_witness :
    (∃ cur2, getItem (runs_update (runs_update
        [[("PK", JVal.str "RUN#r1"), ("SK", JVal.str "RUN#METADATA"),
          ("status", JVal.str "pending"), ("createdAt", JVal.num 1)]]
        "r1" ⟨some (JVal.str "running"), none, none, none, none, none⟩ 4).2
        "r1" ⟨some (JVal.str "running"), none, none, none, none, none⟩ 9).2
        (runPK "r1") runMetaSK = some cur2 ∧
      getAttr cur2 "startedAt" = some (JVal.num 4)) ∧
    (∃ cur2, getItem (steps_update (steps_update
        [[("PK", JVal.str "RUN#r1"), ("SK", JVal.str "STEP#s1"),
          ("status", JVal.str "pending"), ("createdAt", JVal.num 1)]]
        "r1" "s1" ⟨some (JVal.str "running"), none, none, none, none⟩ 4).2
        "r1" "s1" ⟨some (JVal.str "running"), none, none, none, none⟩ 9).2
        (runPK "r1") (stepSK "s1") = some cur2 ∧
      getAttr cur2 "startedAt" = some (JVal.num 4)) := by
  constructor
  · exact C6_startedAt_set_once.2.2.1
      [[("PK", JVal.str "RUN#r1"), ("SK", JVal.str "RUN#METADATA"),
        ("status", JVal.str "pending"), ("createdAt", JVal.num 1)]]
      "r1" ⟨some (JVal.str "running"), none, none, none, none, none⟩
      ⟨some (JVal.str "running"), none, none, none, none, none⟩ 4 9
      [("PK", JVal.str "RUN#r1"), ("SK", JVal.str "RUN#METADATA"),
        ("status", JVal.str "pending"), ("createdAt", JVal.num 1)]
      (by decide) (by decide) rfl rfl (by decide)
  · exact C6_startedAt_set_once.2.2.2.2.2
      [[("PK", JVal.str "RUN#r1"), ("SK", JVal.str "STEP#s1"),
        ("status", JVal.str "pending"), ("createdAt", JVal.num 1)]]
      "r1" "s1" ⟨some (JVal.str "running"), none, none, none, none⟩
      ⟨some (JVal.str "running"), none, none, none, none⟩ 4 9
      [("PK", JVal.str "RUN#r1"), ("SK", JVal.str "STEP#s1"),
        ("status", JVal.str "pending"), ("createdAt", JVal.num 1)]
      (by decide) (by decide) rfl rfl (by decide)

/-- Claim C7.  `runs.update` sets `completedAt` for each of the statuses
`completed`, `failed` and `cancelled`; `steps.update` sets it for
`completed` and `failed` but a step update with status `cancelled` leaves
`completedAt` exactly as it was. -/
theorem C7_completedAt_terminal_asymmetry :
    (∀ (t : Table) (id : String) (p : RunPatch) (now : Int) (cur : Item)
        (s : String),
      getItem t (runPK id) runMetaSK = some cur →
      p.status = some (JVal.str s) →
      (s = "completed" ∨ s = "failed" ∨ s = "cancelled") →
      ∃ cur', getItem (runs_update t id p now).2 (runPK id) runMetaSK = some cur' ∧
        getAttr cur' "completedAt" = some (JVal.num now)) ∧
    (∀ (t : Table) (runId stepId : String) (p : StepPatch) (now : Int)
        (cur : Item) (s : String),
      getItem t (runPK runId) (stepSK stepId) = some cur →
      p.status = some (JVal.str s) →
      (s = "completed" ∨ s = "failed") →
      ∃ cur', getItem (steps_update t runId stepId p now).2
          (runPK runId) (stepSK stepId) = some cur' ∧
        getAttr cur' "completedAt" = some (JVal.num now)) ∧
    (∀ (t : Table) (runId stepId : String) (p : StepPatch) (now : Int)
        (cur : Item),
      getItem t (runPK runId) (stepSK stepId) = some cur →
      p.status = some (JVal.str "cancelled") →
      ∃ cur', getItem (steps_update t runId stepId p now).2
          (runPK runId) (stepSK stepId) = some cur' ∧
        getAttr cur' "completedAt" = getAttr cur "completedAt") := by
  refine ⟨?_, ?_, ?_⟩
  · intro t id p now cur s hget hp hs
    have hkm := keyMatches_of_getItem hget
    have hterm : statusIn p.status ["completed", "failed", "cancelled"] = true := by
      rw [hp]
      rcases hs with h | h | h <;> subst h <;> rfl
    have hkm1 := keyMatches_applySets _ hkm
      (runSets_lastVal_other p cur now "PK" (by decide) (by decide) (by decide)
        (by decide) (by decide) (by decide) (by decide) (by decide) (by decide))
      (runSets_lastVal_other p cur now "SK" (by decide) (by decide) (by decide)
        (by decide) (by decide) (by decide) (by decide) (by decide) (by decide))
    have hg1 := getItem_replaceItem hget hkm1
    simp only [runs_update_some t id p now cur hget]
    refine ⟨_, hg1, ?_⟩
    rw [getAttr_applySets, runSets_lastVal_completedAt, if_pos hterm, Option.or_some]
  · intro t runId stepId p now cur s hget hp hs
    have hkm := keyMatches_of_getItem hget
    have hterm : statusIn p.status ["completed", "failed"] = true := by
      rw [hp]
      rcases hs with h | h <;> subst h <;> rfl
    have hkm1 := keyMatches_applySets _ hkm
      (stepSets_lastVal_other p cur now "PK" (by decide) (by decide) (by decide)
        (by decide) (by decide) (by decide) (by decide) (by decide))
      (stepSets_lastVal_other p cur now "SK" (by decide) (by decide) (by decide)
        (by decide) (by decide) (by decide) (by decide) (by decide))
    have hg1 := getItem_replaceItem hget hkm1
    simp only [steps_update_some t runId stepId p now cur hget]
    refine ⟨_, hg1, ?_⟩
    rw [getAttr_applySets, stepSets_lastVal_completedAt, if_pos hterm, Option.or_some]
  · intro t runId stepId p now cur hget hp
    have hkm := keyMatches_of_getItem hget
    have hterm : statusIn p.status ["completed", "failed"] = false := by
      rw [hp]
      rfl
    have hkm1 := keyMatches_applySets _ hkm
      (stepSets_lastVal_other p cur now "PK" (by decide) (by decide) (by decide)
        (by decide) (by decide) (by decide) (by decide) (by decide))
      (stepSets_lastVal_other p cur now "SK" (by decide) (by decide) (by decide)
        (by decide) (by decide) (by decide) (by decide) (by decide))
    have hg1 := getItem_replaceItem hget hkm1
    simp only [steps_update_some t runId stepId p now cur hget]
    refine ⟨_, hg1, ?_⟩
    rw [getAttr_applySets, stepSets_lastVal_completedAt, if_neg (by simp [hterm]),
      Option.none_or]

/-- Witness for C7: cancelling a run sets its `completedAt` to the call
time; "cancelling" a step leaves `completedAt` absent. -/
theorem C7_completedAt_terminal_asymmetry_witness :
    (∃ cur', getItem (runs_update
        [[("PK", JVal.str "RUN#r1"), ("SK", JVal.str "RUN#METADATA"),
          ("status", JVal.str "running"), ("createdAt", JVal.num 1)]]
        "r1" ⟨some (JVal.str "cancelled"), none, none, none, none, none⟩ 7).2
        (runPK "r1") runMetaSK = some cur' ∧
      getAttr cur' "completedAt" = some (JVal.num 7)) ∧
    (∃ cur', getItem (steps_update
        [[("PK", JVal.str "RUN#r1"), ("SK", JVal.str "STEP#s1"),
          ("status", JVal.str "running"), ("createdAt", JVal.num 1)]]
        "r1" "s1" ⟨some (JVal.str "cancelled"), none, none, none, none⟩ 7).2
        (runPK "r1") (stepSK "s1") = some cur' ∧
      getAttr cur' "completedAt" =
        getAttr [("PK", JVal.str "RUN#r1"), ("SK", JVal.str "STEP#s1"),
          ("status", JVal.str "running"), ("createdAt", JVal.num 1)] "completedAt") := by
  constructor
  · exact C7_completedAt_terminal_asymmetry.1
      [[("PK", JVal.str "RUN#r1"), ("SK", JVal.str "RUN#METADATA"),
        ("status", JVal.str "running"), ("createdAt", JVal.num 1)]]
      "r1" ⟨some (JVal.str "cancelled"), none, none, none, none, none⟩ 7
      [("PK", JVal.str "RUN#r1"), ("SK", JVal.str "RUN#METADATA"),
        ("status", JVal.str "running"), ("createdAt", JVal.num 1)]
      "cancelled" (by decide) rfl (Or.inr (Or.inr rfl))
  · exact C7_completedAt_terminal_asymmetry.2.2
      [[("PK", JVal.str "RUN#r1"), ("SK", JVal.str "STEP#s1"),
        ("status", JVal.str "running"), ("createdAt", JVal.num 1)]]
      "r1" "s1" ⟨some (JVal.str "cancelled"), none, none, none, none⟩ 7
      [("PK", JVal.str "RUN#r1"), ("SK", JVal.str "STEP#s1"),
        ("status", JVal.str "running"), ("createdAt", JVal.num 1)]
      (by decide) rfl

/-- Claim C9, counterexample to the claim as stated.  A no-op update (no
recognised fields in the patch) does NOT return the stored record
unmodified: the update expression always includes `updatedAt`, so the
returned entity carries `updatedAt` = the call time (instant 2), while the
stored record had `updatedAt` 1. -/
theorem C9_counterexample_noop_update_changes_updatedAt :
    (runs_update
        [[("PK", JVal.str "RUN#r1"), ("SK", JVal.str "RUN#METADATA"),
          ("status", JVal.str "pending"), ("createdAt", JVal.num 1),
          ("updatedAt", JVal.num 1)]]
        "r1" ⟨none, none, none, none, none, none⟩ 2).1
      = Except.ok
        [("PK", JVal.str "RUN#r1"), ("SK", JVal.str "RUN#METADATA"),
         ("status", JVal.str "pending"), ("createdAt", JVal.date 1),
         ("updatedAt", JVal.date 2)] ∧
    getAttr (compact
        [("PK", JVal.str "RUN#r1"), ("SK", JVal.str "RUN#METADATA"),
         ("status", JVal.str "pending"), ("createdAt", JVal.num 1),
         ("updatedAt", JVal.num 1)]) "updatedAt" = some (JVal.date 1) ∧
    (some (JVal.date 2) : Option JVal) ≠ some (JVal.date 1) := by
  refine ⟨rfl, rfl, by decide⟩

/-- Claim C9 as amended: a no-op `runs.update` (a patch with none of the six
recognised fields) on an existing run succeeds and returns the stored
record with only `updatedAt` refreshed to the call time; every other
attribute of the stored record is unchanged. -/
theorem C9_noop_update_refreshes_only_updatedAt :
    ∀ (t : Table) (id : String) (now : Int) (cur : Item),
      getItem t (runPK id) runMetaSK = some cur →
      runs_update t id ⟨none, none, none, none, none, none⟩ now
        = (Except.ok (compact (setAttr cur "updatedAt" (JVal.num now))),
           replaceItem t (runPK id) runMetaSK
             (setAttr cur "updatedAt" (JVal.num now))) ∧
      (∀ k, k ≠ "updatedAt" →
        getAttr (setAttr cur "updatedAt" (JVal.num now)) k = getAttr cur k) ∧
      getAttr (setAttr cur "updatedAt" (JVal.num now)) "updatedAt"
        = some (JVal.num now) := by
  intro t id now cur hget
  refine ⟨?_, ?_, ?_⟩
  · exact runs_update_some t id ⟨none, none, none, none, none, none⟩ now cur hget
  · intro k hk
    rw [getAttr_setAttr, if_neg hk]
  · rw [getAttr_setAttr, if_pos rfl]

/-- Witness for the amended C9 on a concrete run with `updatedAt` 1 and a
no-op update at time 2. -/
theorem C9_noop_update_refreshes_only_updatedAt_witness :
    runs_update
        [[("PK", JVal.str "RUN#r1"), ("SK", JVal.str "RUN#METADATA"),
          ("status", JVal.str "pending"), ("createdAt", JVal.num 1),
          ("updatedAt", JVal.num 1)]]
        "r1" ⟨none, none, none, none, none, none⟩ 2
      = (Except.ok (compact (setAttr
          [("PK", JVal.str "RUN#r1"), ("SK", JVal.str "RUN#METADATA"),
           ("status", JVal.str "pending"), ("createdAt", JVal.num 1),
           ("updatedAt", JVal.num 1)] "updatedAt" (JVal.num 2))),
         replaceItem
          [[("PK", JVal.str "RUN#r1"), ("SK", JVal.str "RUN#METADATA"),
            ("status", JVal.str "pending"), ("createdAt", JVal.num 1),
            ("updatedAt", JVal.num 1)]]
          (runPK "r1") runMetaSK
          (setAttr
            [("PK", JVal.str "RUN#r1"), ("SK", JVal.str "RUN#METADATA"),
             ("status", JVal.str "pending"), ("createdAt", JVal.num 1),
             ("updatedAt", JVal.num 1)] "updatedAt" (JVal.num 2))) ∧
    getAttr (setAttr
        [("PK", JVal.str "RUN#r1"), ("SK", JVal.str "RUN#METADATA"),
         ("status", JVal.str "pending"), ("createdAt", JVal.num 1),
         ("updatedAt", JVal.num 1)] "updatedAt" (JVal.num 2)) "status"
      = some (JVal.str "pending") := by
  constructor
  · exact (C9_noop_update_refreshes_only_updatedAt
      [[("PK", JVal.str "RUN#r1"), ("SK", JVal.str "RUN#METADATA"),
        ("status", JVal.str "pending"), ("createdAt", JVal.num 1),
        ("updatedAt", JVal.num 1)]]
      "r1" 2
      [("PK", JVal.str "RUN#r1"), ("SK", JVal.str "RUN#METADATA"),
       ("status", JVal.str "pending"), ("createdAt", JVal.num 1),
       ("updatedAt", JVal.num 1)]
      (by decide)).1
  · exact ((C9_noop_update_refreshes_only_updatedAt
      [[("PK", JVal.str "RUN#r1"), ("SK", JVal.str "RUN#METADATA"),
        ("status", JVal.str "pending"), ("createdAt", JVal.num 1),
        ("updatedAt", JVal.num 1)]]
      "r1" 2
      [("PK", JVal.str "RUN#r1"), ("SK", JVal.str "RUN#METADATA"),
       ("status", JVal.str "pending"), ("createdAt", JVal.num 1),
       ("updatedAt", JVal.num 1)]
      (by decide)).2.1 "status" (by decide))

/-! ## Pagination: core lemmas

A backend query returns a pool of records sorted strictly by a key (the
strictness holds whenever the sort-attribute values are pairwise distinct);
a page takes `limit + 1` raw records, filters by entity type and slices to
`limit`.  The central lemma `twoPage` shows: if a first page is non-empty,
querying again with the strict condition `key < key(last of page 1)` (in
the pool order) continues exactly where the first page stopped — the two
pages concatenate to a gap-free, overlap-free prefix of the full filtered
pool. -/

theorem pageVals_decomp {keep : Item → Bool} :
    ∀ (pool : List Item) (n1 limit : Nat) (lastV : Item),
      (((pool.take n1).filter keep).take limit).getLast? = some lastV →
      ∃ P S, pool = P ++ lastV :: S ∧
        ((pool.take n1).filter keep).take limit = P.filter keep ++ [lastV] ∧
        keep lastV = true := by
  intro pool
  induction pool with
  | nil =>
      intro n1 limit lastV h
      simp at h
  | cons x pool ih =>
      intro n1 limit lastV h
      cases n1 with
      | zero => simp at h
      | succ m1 =>
          rw [List.take_succ_cons] at h
          by_cases hk : keep x = true
          · rw [List.filter_cons_of_pos hk] at h
            cases limit with
            | zero => simp at h
            | succ l =>
                rw [List.take_succ_cons] at h
                cases htail : (((pool.take m1).filter keep).take l).getLast? with
                | none =>
                    have htl : ((pool.take m1).filter keep).take l = [] :=
                      List.getLast?_eq_none_iff.mp htail
                    rw [htl] at h
                    have hx : lastV = x := by
                      rw [List.getLast?_singleton] at h
                      exact (Option.some_inj.mp h).symm
                    subst hx
                    refine ⟨[], pool, rfl, ?_, hk⟩
                    rw [List.take_succ_cons, List.filter_cons_of_pos hk,
                      List.take_succ_cons, htl]
                    rfl
                | some lv =>
                    have htne : ((pool.take m1).filter keep).take l ≠ [] := by
                      intro hh
                      rw [hh] at htail
                      simp at htail
                    have hgl : (x :: ((pool.take m1).filter keep).take l).getLast?
                        = (((pool.take m1).filter keep).take l).getLast? := by
                      cases hc : ((pool.take m1).filter keep).take l with
                      | nil => exact absurd hc htne
                      | cons y ys => exact List.getLast?_cons_cons
                    rw [hgl, htail] at h
                    have hlv : lv = lastV := Option.some_inj.mp h
                    subst hlv
                    obtain ⟨P, S, hps, hvals, hkeep⟩ := ih m1 l lv htail
                    refine ⟨x :: P, S, by rw [hps]; rfl, ?_, hkeep⟩
                    rw [List.take_succ_cons, List.filter_cons_of_pos hk,
                      List.take_succ_cons, hvals, List.filter_cons_of_pos hk]
                    rfl
          · rw [List.filter_cons_of_neg hk] at h
            obtain ⟨P, S, hps, hvals, hkeep⟩ := ih m1 limit lastV h
            refine ⟨x :: P, S, by rw [hps]; rfl, ?_, hkeep⟩
            rw [List.take_succ_cons, List.filter_cons_of_neg hk, hvals]
            rw [List.filter_cons_of_neg hk]

/-- The central two-page lemma over a strictly sorted pool. -/
theorem twoPage {K : Type} (lt : K → K → Bool) (key : Item → K)
    (keep : Item → Bool) (pool : List Item) (n1 limit : Nat) (lastV : Item)
    (hasym : ∀ a b, lt a b = true → lt b a = false)
    (hs : pool.Pairwise (fun a b => lt (key b) (key a) = true))
    (hlast : (((pool.take n1).filter keep).take limit).getLast? = some lastV) :
    lastV ∈ pool ∧ keep lastV = true ∧
    (∃ rest, (((pool.take n1).filter keep).take limit) ++
        ((((pool.filter (fun it => lt (key it) (key lastV))).take n1).filter keep).take limit)
        ++ rest = pool.filter keep) ∧
    (∀ it ∈ (((pool.filter (fun it => lt (key it) (key lastV))).take n1).filter keep).take limit,
      lt (key it) (key lastV) = true) := by
  obtain ⟨P, S, hps, hvals, hkeep⟩ := pageVals_decomp pool n1 limit lastV hlast
  subst hps
  rw [List.pairwise_append] at hs
  obtain ⟨hsP, hsLS, hcross⟩ := hs
  rw [List.pairwise_cons] at hsLS
  obtain ⟨hSlt, hsS⟩ := hsLS
  have hfilter : (P ++ lastV :: S).filter (fun it => lt (key it) (key lastV)) = S := by
    rw [List.filter_append]
    have hP : P.filter (fun it => lt (key it) (key lastV)) = [] := by
      rw [List.filter_eq_nil_iff]
      intro a ha
      have h1 : lt (key lastV) (key a) = true :=
        hcross a ha lastV (List.mem_cons_self lastV S)
      simp [hasym _ _ h1]
    have hlast_self : lt (key lastV) (key lastV) = false := by
      cases hh : lt (key lastV) (key lastV) with
      | false => rfl
      | true =>
          have := hasym _ _ hh
          rw [hh] at this
          exact this
    have hLS : (lastV :: S).filter (fun it => lt (key it) (key lastV)) = S := by
      rw [List.filter_cons_of_neg (by simp [hlast_self])]
      rw [List.filter_eq_self]
      intro a ha
      exact hSlt a ha
    rw [hP, hLS]
    rfl
  have hmem : lastV ∈ P ++ lastV :: S :=
    List.mem_append.mpr (Or.inr (List.mem_cons_self lastV S))
  refine ⟨hmem, hkeep, ?_, ?_⟩
  · refine ⟨((S.take n1).filter keep).drop limit ++ (S.drop n1).filter keep, ?_⟩
    rw [hvals, hfilter]
    rw [List.filter_append, List.filter_cons_of_pos hkeep]
    have hX : ((S.take n1).filter keep).take limit ++
        (((S.take n1).filter keep).drop limit ++ (S.drop n1).filter keep)
        = S.filter keep := by
      rw [← List.append_assoc, List.take_append_drop]
      rw [← List.filter_append, List.take_append_drop]
    rw [List.append_assoc, List.append_assoc, List.singleton_append, hX]
  · intro it hit
    rw [hfilter] at hit
    have h1 : it ∈ S := by
      have hs1 := List.take_sublist limit ((S.take n1).filter keep)
      have hs2 : ((S.take n1).filter keep).Sublist (S.take n1) :=
        List.filter_sublist (S.take n1)
      have hs3 := List.take_sublist n1 S
      exact List.Sublist.mem (List.Sublist.mem (List.Sublist.mem hit hs1) hs2) hs3
    exact hSlt it h1

theorem insertionSort_pairwise (r : Item → Item → Prop) [DecidableRel r]
    (htot : ∀ a b, r a b ∨ r b a) (htrans : ∀ a b c, r a b → r b c → r a c)
    (l : List Item) : (l.insertionSort r).Pairwise r := by
  haveI : IsTotal Item r := ⟨htot⟩
  haveI : IsTrans Item r := ⟨fun a b c => htrans a b c⟩
  exact List.sorted_insertionSort r l

theorem eq_of_perm_of_pairwise_antisymm (r : Item → Item → Prop) :
    ∀ (l₁ l₂ : List Item), l₁.Perm l₂ → l₁.Pairwise r → l₂.Pairwise r →
      (∀ a, a ∈ l₁ → ∀ b, b ∈ l₁ → r a b → r b a → a = b) → l₁ = l₂ := by
  intro l₁
  induction l₁ with
  | nil =>
      intro l₂ hp _ _ _
      exact hp.nil_eq
  | cons a t ih =>
      intro l₂ hp hs1 hs2 hanti
      cases l₂ with
      | nil => exact absurd hp.eq_nil (by simp)
      | cons b t₂ =>
          rw [List.pairwise_cons] at hs1 hs2
          have hab : a = b := by
            by_cases hne : a = b
            · exact hne
            · have ha2 : a ∈ b :: t₂ := hp.mem_iff.mp (List.mem_cons_self a t)
              have hb1 : b ∈ a :: t := hp.symm.mem_iff.mp (List.mem_cons_self b t₂)
              have ha2' : a ∈ t₂ := by
                cases List.mem_cons.mp ha2 with
                | inl hh => exact absurd hh hne
                | inr hh => exact hh
              have hb1' : b ∈ t := by
                cases List.mem_cons.mp hb1 with
                | inl hh => exact absurd hh.symm hne
                | inr hh => exact hh
              have hrab : r a b := hs1.1 b hb1'
              have hrba : r b a := hs2.1 a ha2'
              exact hanti a (List.mem_cons_self a t) b
                (List.mem_cons.mpr (Or.inr hb1')) hrab hrba
          subst hab
          have ht : t.Perm t₂ := hp.cons_inv
          have heq := ih t₂ ht hs1.2 hs2.2
            (fun x hx y hy => hanti x (List.mem_cons.mpr (Or.inr hx)) y
              (List.mem_cons.mpr (Or.inr hy)))
          rw [heq]

theorem insertionSort_filter_comm (r : Item → Item → Prop) [DecidableRel r]
    (htot : ∀ a b, r a b ∨ r b a) (htrans : ∀ a b c, r a b → r b c → r a c)
    (l : List Item) (p : Item → Bool)
    (hanti : ∀ a, a ∈ l → ∀ b, b ∈ l → r a b → r b a → a = b) :
    (l.filter p).insertionSort r = (l.insertionSort r).filter p := by
  apply eq_of_perm_of_pairwise_antisymm r
  · exact (List.perm_insertionSort r (l.filter p)).trans
      ((List.Perm.filter p (List.perm_insertionSort r l)).symm)
  · exact insertionSort_pairwise r htot htrans (l.filter p)
  · exact List.Pairwise.filter p (insertionSort_pairwise r htot htrans l)
  · intro a ha b hb
    have ha' : a ∈ l :=
      List.mem_of_mem_filter ((List.perm_insertionSort r (l.filter p)).mem_iff.mp ha)
    have hb' : b ∈ l :=
      List.mem_of_mem_filter ((List.perm_insertionSort r (l.filter p)).mem_iff.mp hb)
    exact hanti a ha' b hb'

theorem sortDescBy_pairwise_strict {K : Type} [LinearOrder K] (f : Item → K)
    (l : List Item) (hne : l.Pairwise (fun a b => f a ≠ f b)) :
    (sortDescBy f l).Pairwise (fun a b => f b < f a) := by
  have hsorted : (sortDescBy f l).Pairwise (fun a b => f b ≤ f a) :=
    insertionSort_pairwise _ (fun a b => le_total (f b) (f a))
      (fun a b c h1 h2 => le_trans h2 h1) l
  have hperm : (sortDescBy f l).Perm l := List.perm_insertionSort _ l
  have hne' : (sortDescBy f l).Pairwise (fun a b => f a ≠ f b) :=
    (List.Perm.pairwise_iff (fun h => Ne.symm h) hperm).mpr hne
  exact (hsorted.and hne').imp
    (fun h => lt_of_le_of_ne h.1 (Ne.symm h.2))

theorem sortAscBy_pairwise_strict {K : Type} [LinearOrder K] (f : Item → K)
    (l : List Item) (hne : l.Pairwise (fun a b => f a ≠ f b)) :
    (sortAscBy f l).Pairwise (fun a b => f a < f b) := by
  have hsorted : (sortAscBy f l).Pairwise (fun a b => f a ≤ f b) :=
    insertionSort_pairwise _ (fun a b => le_total (f a) (f b))
      (fun a b c h1 h2 => le_trans h1 h2) l
  have hperm : (sortAscBy f l).Perm l := List.perm_insertionSort _ l
  have hne' : (sortAscBy f l).Pairwise (fun a b => f a ≠ f b) :=
    (List.Perm.pairwise_iff (fun h => Ne.symm h) hperm).mpr hne
  exact (hsorted.and hne').imp
    (fun h => lt_of_le_of_ne h.1 h.2)

theorem sortDescBy_filter_comm {K : Type} [LinearOrder K] (f : Item → K)
    (l : List Item) (p : Item → Bool)
    (hne : l.Pairwise (fun a b => f a ≠ f b)) :
    sortDescBy f (l.filter p) = (sortDescBy f l).filter p := by
  unfold sortDescBy
  apply insertionSort_filter_comm _ (fun a b => le_total (f b) (f a))
    (fun a b c h1 h2 => le_trans h2 h1)
  intro a ha b hb h1 h2
  by_cases hab : a = b
  · exact hab
  · have hsymm : Symmetric (fun a b : Item => f a ≠ f b) := by
      intro x y hxy
      exact Ne.symm hxy
    have hfne : f a ≠ f b := List.Pairwise.forall hsymm hne ha hb hab
    exact absurd (le_antisymm h2 h1) hfne

theorem sortAscBy_filter_comm {K : Type} [LinearOrder K] (f : Item → K)
    (l : List Item) (p : Item → Bool)
    (hne : l.Pairwise (fun a b => f a ≠ f b)) :
    sortAscBy f (l.filter p) = (sortAscBy f l).filter p := by
  unfold sortAscBy
  apply insertionSort_filter_comm _ (fun a b => le_total (f a) (f b))
    (fun a b c h1 h2 => le_trans h1 h2)
  intro a ha b hb h1 h2
  by_cases hab : a = b
  · exact hab
  · have hsymm : Symmetric (fun a b : Item => f a ≠ f b) := by
      intro x y hxy
      exact Ne.symm hxy
    have hfne : f a ≠ f b := List.Pairwise.forall hsymm hne ha hb hab
    exact absurd (le_antisymm h1 h2) hfne

/-- The page-shape facts every list operation inherits from `pageOf`: at
most `limit` records are returned, an empty page carries a null cursor, and
`hasMore` holds exactly when the backend returned more than `limit` raw
records. -/
theorem pageOf_basic (items : List Item) (keep : Item → Bool) (limit : Nat)
    (attr : String) :
    (pageOf items keep limit attr).data.length ≤ limit ∧
    ((pageOf items keep limit attr).data = [] →
      (pageOf items keep limit attr).cursor = none) ∧
    (pageOf items keep limit attr).hasMore = decide (limit < items.length) := by
  refine ⟨?_, ?_, rfl⟩
  · show (((items.filter keep).take limit).map compact).length ≤ limit
    rw [List.length_map, List.length_take]
    exact min_le_left _ _
  · intro h
    show lastCursor ((items.filter keep).take limit) attr = none
    have h0 : (items.filter keep).take limit = [] := by
      have h1 : (((items.filter keep).take limit).map compact) = [] := h
      exact List.map_eq_nil_iff.mp h1
    rw [h0]
    rfl

theorem getAttr_createdAt_of_hasNum {it : Item}
    (h : hasNumAttr it "createdAt" = true) :
    getAttr it "createdAt" = some (JVal.num (createdAtKey it)) := by
  unfold hasNumAttr at h
  unfold createdAtKey
  cases hh : getAttr it "createdAt" with
  | none => rw [hh] at h; simp at h
  | some v =>
      cases v with
      | num n => rfl
      | null => rw [hh] at h; simp at h
      | str s => rw [hh] at h; simp at h
      | date d => rw [hh] at h; simp at h

theorem itemStr_of_getAttr {it : Item} {k s : String}
    (h : getAttr it k = some (JVal.str s)) : itemStr it k = s := by
  unfold itemStr
  rw [h]

/-- Two consecutive pages of a descending partition query (`PK = pkv`,
`ScanIndexForward: false`, cursor compared as `SK < prefix(id)`), as used by
`steps.list`, the per-run branch of `hooks.list`, and descending
`events.list`.  Hypotheses: primary keys in the table are distinct, and
every kept record's id attribute is a non-empty string consistent with its
sort key. -/
theorem descSkPage_two_pages (t : Table) (pkv : String) (limit : Nat)
    (keep : Item → Bool) (idAttr : String) (pfx : String → String) (c0 : JVal)
    (hkeys : t.Pairwise
      (fun a b => ¬(itemStr a "PK" = itemStr b "PK" ∧ skStr a = skStr b)))
    (hwf : ∀ it ∈ t, keep it = true →
      getAttr it idAttr = some (JVal.str (itemStr it idAttr)) ∧
      itemStr it idAttr ≠ "" ∧ skStr it = pfx (itemStr it idAttr))
    (hcur : (pageOf ((sortDescBy skStr (t.filter
        (fun it => getAttr it "PK" == some (JVal.str pkv)))).take (limit + 1))
        keep limit idAttr).cursor = some c0) :
    ∃ sid, c0 = JVal.str sid ∧ sid ≠ "" ∧
      (∃ rest, (pageOf ((sortDescBy skStr (t.filter
          (fun it => getAttr it "PK" == some (JVal.str pkv)))).take (limit + 1))
          keep limit idAttr).data ++
        (pageOf ((sortDescBy skStr (t.filter
          (fun it => getAttr it "PK" == some (JVal.str pkv) &&
            decide (skStr it < pfx sid)))).take (limit + 1))
          keep limit idAttr).data ++ rest
        = ((sortDescBy skStr (t.filter
            (fun it => getAttr it "PK" == some (JVal.str pkv)))).filter keep).map
            compact) ∧
      (∀ x ∈ (pageOf ((sortDescBy skStr (t.filter
          (fun it => getAttr it "PK" == some (JVal.str pkv) &&
            decide (skStr it < pfx sid)))).take (limit + 1))
          keep limit idAttr).data,
        ∃ y, x = compact y ∧ keep y = true ∧ skStr y < pfx sid) := by
  have hcur' : ((((sortDescBy skStr (t.filter
      (fun it => getAttr it "PK" == some (JVal.str pkv)))).take (limit + 1)).filter
      keep).take limit).getLast?.bind (fun it => getAttr it idAttr) = some c0 := hcur
  obtain ⟨lastV, hlastV, hattr⟩ := Option.bind_eq_some.mp hcur'
  -- distinct sort keys within the partition
  have hne_pool : (t.filter
      (fun it => getAttr it "PK" == some (JVal.str pkv))).Pairwise
      (fun a b => skStr a ≠ skStr b) := by
    have hp1 : (t.filter
        (fun it => getAttr it "PK" == some (JVal.str pkv))).Pairwise
        (fun a b => ¬(itemStr a "PK" = itemStr b "PK" ∧ skStr a = skStr b)) :=
      List.Pairwise.sublist (List.filter_sublist t) hkeys
    refine List.Pairwise.imp_of_mem ?_ hp1
    intro a b ha hb hR hsk
    have hpa : getAttr a "PK" = some (JVal.str pkv) := by
      have := (List.mem_filter.mp ha).2
      simpa using this
    have hpb : getAttr b "PK" = some (JVal.str pkv) := by
      have := (List.mem_filter.mp hb).2
      simpa using this
    exact hR ⟨by rw [itemStr_of_getAttr hpa, itemStr_of_getAttr hpb], hsk⟩
  have hs := sortDescBy_pairwise_strict skStr
    (t.filter (fun it => getAttr it "PK" == some (JVal.str pkv))) hne_pool
  have hasym : ∀ a b : String, decide (a < b) = true → decide (b < a) = false :=
    fun a b h => decide_eq_false (lt_asymm (of_decide_eq_true h))
  obtain ⟨hmemPool, hkeepLast, ⟨rest0, hprefix⟩, hmem2⟩ :=
    twoPage (fun a b : String => decide (a < b)) skStr keep
      (sortDescBy skStr (t.filter
        (fun it => getAttr it "PK" == some (JVal.str pkv))))
      (limit + 1) limit lastV hasym
      (hs.imp (fun h => decide_eq_true h)) hlastV
  -- the last record of page 1 is a kept record of the table
  have hmemT : lastV ∈ t :=
    List.mem_of_mem_filter
      ((List.perm_insertionSort _ _).mem_iff.mp hmemPool)
  obtain ⟨hid, hidne, hsk⟩ := hwf lastV hmemT hkeepLast
  have hc0 : c0 = JVal.str (itemStr lastV idAttr) := by
    rw [hid] at hattr
    exact (Option.some_inj.mp hattr).symm
  refine ⟨itemStr lastV idAttr, hc0, hidne, ?_, ?_⟩
  · -- the two pages continue each other with no overlap and no gap
    have hsplit : t.filter (fun it =>
        getAttr it "PK" == some (JVal.str pkv) &&
          decide (skStr it < pfx (itemStr lastV idAttr)))
        = (t.filter (fun it => getAttr it "PK" == some (JVal.str pkv))).filter
            (fun it => decide (skStr it < pfx (itemStr lastV idAttr))) := by
      rw [List.filter_filter]
      apply List.filter_congr
      intro a _
      rw [Bool.and_comm]
    have hcomm := sortDescBy_filter_comm skStr
      (t.filter (fun it => getAttr it "PK" == some (JVal.str pkv)))
      (fun it => decide (skStr it < pfx (itemStr lastV idAttr))) hne_pool
    rw [← hsk] at hsplit hcomm ⊢
    refine ⟨rest0.map compact, ?_⟩
    show ((((sortDescBy skStr (t.filter
        (fun it => getAttr it "PK" == some (JVal.str pkv)))).take (limit + 1)).filter
        keep).take limit).map compact ++ _ ++ _ = _
    rw [hsplit, hcomm]
    have hmc := congrArg (List.map compact) hprefix
    rw [List.map_append, List.map_append] at hmc
    exact hmc
  · intro x hx
    rw [← hsk] at hx
    have hx' : x ∈ (((((sortDescBy skStr (t.filter
        (fun it => getAttr it "PK" == some (JVal.str pkv)))).filter
        (fun it => decide (skStr it < skStr lastV))).take (limit + 1)).filter
        keep).take limit).map compact := by
      have hsplit : t.filter (fun it =>
          getAttr it "PK" == some (JVal.str pkv) &&
            decide (skStr it < skStr lastV))
          = (t.filter (fun it => getAttr it "PK" == some (JVal.str pkv))).filter
              (fun it => decide (skStr it < skStr lastV)) := by
        rw [List.filter_filter]
        apply List.filter_congr
        intro a _
        rw [Bool.and_comm]
      have hcomm := sortDescBy_filter_comm skStr
        (t.filter (fun it => getAttr it "PK" == some (JVal.str pkv)))
        (fun it => decide (skStr it < skStr lastV)) hne_pool
      have hx2 : x ∈ (pageOf ((sortDescBy skStr ((t.filter
          (fun it => getAttr it "PK" == some (JVal.str pkv))).filter
          (fun it => decide (skStr it < skStr lastV)))).take (limit + 1))
          keep limit idAttr).data := by
        rw [← hsplit]
        exact hx
      rw [hcomm] at hx2
      exact hx2
    obtain ⟨y, hy, hxy⟩ := List.mem_map.mp hx'
    have hkeepy : keep y = true := by
      have h1 := List.Sublist.mem hy (List.take_sublist limit _)
      exact (List.mem_filter.mp h1).2
    have hlty := hmem2 y hy
    refine ⟨y, hxy.symm, hkeepy, ?_⟩
    rw [← hsk]
    exact of_decide_eq_true hlty

/-- Two consecutive pages of an ascending partition query (cursor compared
as `SK > prefix(id)`), as used by ascending `events.list`. -/
theorem ascSkPage_two_pages (t : Table) (pkv : String) (limit : Nat)
    (keep : Item → Bool) (idAttr : String) (pfx : String → String) (c0 : JVal)
    (hkeys : t.Pairwise
      (fun a b => ¬(itemStr a "PK" = itemStr b "PK" ∧ skStr a = skStr b)))
    (hwf : ∀ it ∈ t, keep it = true →
      getAttr it idAttr = some (JVal.str (itemStr it idAttr)) ∧
      itemStr it idAttr ≠ "" ∧ skStr it = pfx (itemStr it idAttr))
    (hcur : (pageOf ((sortAscBy skStr (t.filter
        (fun it => getAttr it "PK" == some (JVal.str pkv)))).take (limit + 1))
        keep limit idAttr).cursor = some c0) :
    ∃ sid, c0 = JVal.str sid ∧ sid ≠ "" ∧
      (∃ rest, (pageOf ((sortAscBy skStr (t.filter
          (fun it => getAttr it "PK" == some (JVal.str pkv)))).take (limit + 1))
          keep limit idAttr).data ++
        (pageOf ((sortAscBy skStr (t.filter
          (fun it => getAttr it "PK" == some (JVal.str pkv) &&
            decide (pfx sid < skStr it)))).take (limit + 1))
          keep limit idAttr).data ++ rest
        = ((sortAscBy skStr (t.filter
            (fun it => getAttr it "PK" == some (JVal.str pkv)))).filter keep).map
            compact) ∧
      (∀ x ∈ (pageOf ((sortAscBy skStr (t.filter
          (fun it => getAttr it "PK" == some (JVal.str pkv) &&
            decide (pfx sid < skStr it)))).take (limit + 1))
          keep limit idAttr).data,
        ∃ y, x = compact y ∧ keep y = true ∧ pfx sid < skStr y) := by
  have hcur' : ((((sortAscBy skStr (t.filter
      (fun it => getAttr it "PK" == some (JVal.str pkv)))).take (limit + 1)).filter
      keep).take limit).getLast?.bind (fun it => getAttr it idAttr) = some c0 := hcur
  obtain ⟨lastV, hlastV, hattr⟩ := Option.bind_eq_some.mp hcur'
  have hne_pool : (t.filter
      (fun it => getAttr it "PK" == some (JVal.str pkv))).Pairwise
      (fun a b => skStr a ≠ skStr b) := by
    have hp1 : (t.filter
        (fun it => getAttr it "PK" == some (JVal.str pkv))).Pairwise
        (fun a b => ¬(itemStr a "PK" = itemStr b "PK" ∧ skStr a = skStr b)) :=
      List.Pairwise.sublist (List.filter_sublist t) hkeys
    refine List.Pairwise.imp_of_mem ?_ hp1
    intro a b ha hb hR hsk
    have hpa : getAttr a "PK" = some (JVal.str pkv) := by
      have := (List.mem_filter.mp ha).2
      simpa using this
    have hpb : getAttr b "PK" = some (JVal.str pkv) := by
      have := (List.mem_filter.mp hb).2
      simpa using this
    exact hR ⟨by rw [itemStr_of_getAttr hpa, itemStr_of_getAttr hpb], hsk⟩
  have hs := sortAscBy_pairwise_strict skStr
    (t.filter (fun it => getAttr it "PK" == some (JVal.str pkv))) hne_pool
  have hasym : ∀ a b : String, decide (b < a) = true → decide (a < b) = false :=
    fun a b h => decide_eq_false (lt_asymm (of_decide_eq_true h))
  obtain ⟨hmemPool, hkeepLast, ⟨rest0, hprefix⟩, hmem2⟩ :=
    twoPage (fun a b : String => decide (b < a)) skStr keep
      (sortAscBy skStr (t.filter
        (fun it => getAttr it "PK" == some (JVal.str pkv))))
      (limit + 1) limit lastV hasym
      (hs.imp (fun h => decide_eq_true h)) hlastV
  have hmemT : lastV ∈ t :=
    List.mem_of_mem_filter
      ((List.perm_insertionSort _ _).mem_iff.mp hmemPool)
  obtain ⟨hid, hidne, hsk⟩ := hwf lastV hmemT hkeepLast
  have hc0 : c0 = JVal.str (itemStr lastV idAttr) := by
    rw [hid] at hattr
    exact (Option.some_inj.mp hattr).symm
  refine ⟨itemStr lastV idAttr, hc0, hidne, ?_, ?_⟩
  · have hsplit : t.filter (fun it =>
        getAttr it "PK" == some (JVal.str pkv) &&
          decide (pfx (itemStr lastV idAttr) < skStr it))
        = (t.filter (fun it => getAttr it "PK" == some (JVal.str pkv))).filter
            (fun it => decide (pfx (itemStr lastV idAttr) < skStr it)) := by
      rw [List.filter_filter]
      apply List.filter_congr
      intro a _
      rw [Bool.and_comm]
    have hcomm := sortAscBy_filter_comm skStr
      (t.filter (fun it => getAttr it "PK" == some (JVal.str pkv)))
      (fun it => decide (pfx (itemStr lastV idAttr) < skStr it)) hne_pool
    rw [← hsk] at hsplit hcomm ⊢
    refine ⟨rest0.map compact, ?_⟩
    show ((((sortAscBy skStr (t.filter
        (fun it => getAttr it "PK" == some (JVal.str pkv)))).take (limit + 1)).filter
        keep).take limit).map compact ++ _ ++ _ = _
    rw [hsplit, hcomm]
    have hmc := congrArg (List.map compact) hprefix
    rw [List.map_append, List.map_append] at hmc
    exact hmc
  · intro x hx
    rw [← hsk] at hx
    have hx' : x ∈ (((((sortAscBy skStr (t.filter
        (fun it => getAttr it "PK" == some (JVal.str pkv)))).filter
        (fun it => decide (skStr lastV < skStr it))).take (limit + 1)).filter
        keep).take limit).map compact := by
      have hsplit : t.filter (fun it =>
          getAttr it "PK" == some (JVal.str pkv) &&
            decide (skStr lastV < skStr it))
          = (t.filter (fun it => getAttr it "PK" == some (JVal.str pkv))).filter
              (fun it => decide (skStr lastV < skStr it)) := by
        rw [List.filter_filter]
        apply List.filter_congr
        intro a _
        rw [Bool.and_comm]
      have hcomm := sortAscBy_filter_comm skStr
        (t.filter (fun it => getAttr it "PK" == some (JVal.str pkv)))
        (fun it => decide (skStr lastV < skStr it)) hne_pool
      have hx2 : x ∈ (pageOf ((sortAscBy skStr ((t.filter
          (fun it => getAttr it "PK" == some (JVal.str pkv))).filter
          (fun it => decide (skStr lastV < skStr it)))).take (limit + 1))
          keep limit idAttr).data := by
        rw [← hsplit]
        exact hx
      rw [hcomm] at hx2
      exact hx2
    obtain ⟨y, hy, hxy⟩ := List.mem_map.mp hx'
    have hkeepy : keep y = true := by
      have h1 := List.Sublist.mem hy (List.take_sublist limit _)
      exact (List.mem_filter.mp h1).2
    have hlty := hmem2 y hy
    refine ⟨y, hxy.symm, hkeepy, ?_⟩
    rw [← hsk]
    exact of_decide_eq_true hlty

/-- Two consecutive pages of a descending createdAt-index query, as used by
all three `runs.list` paths, the global branch of `hooks.list`, and
descending `events.listByCorrelationId`.  The distinct-creation-instants
hypothesis is the proviso the tied-timestamp counterexample forces. -/
theorem descCreatedAtPage_two_pages (t : Table) (hashAttr : String)
    (hashVal : JVal) (limit : Nat) (keep : Item → Bool) (c0 : JVal)
    (hne : (t.filter (fun it => inCreatedAtIndex hashAttr hashVal it)).Pairwise
      (fun a b => createdAtKey a ≠ createdAtKey b))
    (hpos : ∀ it ∈ t.filter (fun it => inCreatedAtIndex hashAttr hashVal it),
      0 < createdAtKey it)
    (hcur : (pageOf ((sortDescBy createdAtKey (t.filter
        (fun it => inCreatedAtIndex hashAttr hashVal it))).take (limit + 1))
        keep limit "createdAt").cursor = some c0) :
    ∃ k0 : Int, c0 = JVal.num k0 ∧ 0 < k0 ∧
      (∃ rest, (pageOf ((sortDescBy createdAtKey (t.filter
          (fun it => inCreatedAtIndex hashAttr hashVal it))).take (limit + 1))
          keep limit "createdAt").data ++
        (pageOf ((sortDescBy createdAtKey (t.filter
          (fun it => inCreatedAtIndex hashAttr hashVal it &&
            decide (createdAtKey it < k0)))).take (limit + 1))
          keep limit "createdAt").data ++ rest
        = ((sortDescBy createdAtKey (t.filter
            (fun it => inCreatedAtIndex hashAttr hashVal it))).filter keep).map
            compact) ∧
      (∀ x ∈ (pageOf ((sortDescBy createdAtKey (t.filter
          (fun it => inCreatedAtIndex hashAttr hashVal it &&
            decide (createdAtKey it < k0)))).take (limit + 1))
          keep limit "createdAt").data,
        ∃ y, x = compact y ∧ keep y = true ∧ createdAtKey y < k0) := by
  have hcur' : ((((sortDescBy createdAtKey (t.filter
      (fun it => inCreatedAtIndex hashAttr hashVal it))).take (limit + 1)).filter
      keep).take limit).getLast?.bind (fun it => getAttr it "createdAt")
      = some c0 := hcur
  obtain ⟨lastV, hlastV, hattr⟩ := Option.bind_eq_some.mp hcur'
  have hs := sortDescBy_pairwise_strict createdAtKey
    (t.filter (fun it => inCreatedAtIndex hashAttr hashVal it)) hne
  have hasym : ∀ a b : Int, decide (a < b) = true → decide (b < a) = false :=
    fun a b h => decide_eq_false (lt_asymm (of_decide_eq_true h))
  obtain ⟨hmemPool, hkeepLast, ⟨rest0, hprefix⟩, hmem2⟩ :=
    twoPage (fun a b : Int => decide (a < b)) createdAtKey keep
      (sortDescBy createdAtKey (t.filter
        (fun it => inCreatedAtIndex hashAttr hashVal it)))
      (limit + 1) limit lastV hasym
      (hs.imp (fun h => decide_eq_true h)) hlastV
  have hmemF : lastV ∈ t.filter (fun it => inCreatedAtIndex hashAttr hashVal it) :=
    (List.perm_insertionSort _ _).mem_iff.mp hmemPool
  have hbase : inCreatedAtIndex hashAttr hashVal lastV = true :=
    (List.mem_filter.mp hmemF).2
  have hnum : hasNumAttr lastV "createdAt" = true := by
    unfold inCreatedAtIndex at hbase
    exact (Bool.and_eq_true _ _ ▸ hbase).2
  have hc0 : c0 = JVal.num (createdAtKey lastV) := by
    rw [getAttr_createdAt_of_hasNum hnum] at hattr
    exact (Option.some_inj.mp hattr).symm
  refine ⟨createdAtKey lastV, hc0, hpos lastV hmemF, ?_, ?_⟩
  · have hsplit : t.filter (fun it =>
        inCreatedAtIndex hashAttr hashVal it &&
          decide (createdAtKey it < createdAtKey lastV))
        = (t.filter (fun it => inCreatedAtIndex hashAttr hashVal it)).filter
            (fun it => decide (createdAtKey it < createdAtKey lastV)) := by
      rw [List.filter_filter]
      apply List.filter_congr
      intro a _
      rw [Bool.and_comm]
    have hcomm := sortDescBy_filter_comm createdAtKey
      (t.filter (fun it => inCreatedAtIndex hashAttr hashVal it))
      (fun it => decide (createdAtKey it < createdAtKey lastV)) hne
    refine ⟨rest0.map compact, ?_⟩
    show ((((sortDescBy createdAtKey (t.filter
        (fun it => inCreatedAtIndex hashAttr hashVal it))).take (limit + 1)).filter
        keep).take limit).map compact ++ _ ++ _ = _
    rw [hsplit, hcomm]
    have hmc := congrArg (List.map compact) hprefix
    rw [List.map_append, List.map_append] at hmc
    exact hmc
  · intro x hx
    have hx' : x ∈ (((((sortDescBy createdAtKey (t.filter
        (fun it => inCreatedAtIndex hashAttr hashVal it))).filter
        (fun it => decide (createdAtKey it < createdAtKey lastV))).take
        (limit + 1)).filter keep).take limit).map compact := by
      have hsplit : t.filter (fun it =>
          inCreatedAtIndex hashAttr hashVal it &&
            decide (createdAtKey it < createdAtKey lastV))
          = (t.filter (fun it => inCreatedAtIndex hashAttr hashVal it)).filter
              (fun it => decide (createdAtKey it < createdAtKey lastV)) := by
        rw [List.filter_filter]
        apply List.filter_congr
        intro a _
        rw [Bool.and_comm]
      have hcomm := sortDescBy_filter_comm createdAtKey
        (t.filter (fun it => inCreatedAtIndex hashAttr hashVal it))
        (fun it => decide (createdAtKey it < createdAtKey lastV)) hne
      have hx2 : x ∈ (pageOf ((sortDescBy createdAtKey ((t.filter
          (fun it => inCreatedAtIndex hashAttr hashVal it)).filter
          (fun it => decide (createdAtKey it < createdAtKey lastV)))).take
          (limit + 1)) keep limit "createdAt").data := by
        rw [← hsplit]
        exact hx
      rw [hcomm] at hx2
      exact hx2
    obtain ⟨y, hy, hxy⟩ := List.mem_map.mp hx'
    have hkeepy : keep y = true := by
      have h1 := List.Sublist.mem hy (List.take_sublist limit _)
      exact (List.mem_filter.mp h1).2
    have hlty := hmem2 y hy
    exact ⟨y, hxy.symm, hkeepy, of_decide_eq_true hlty⟩

/-- Two consecutive pages of an ascending createdAt-index query, as used by
ascending `events.listByCorrelationId`. -/
theorem ascCreatedAtPage_two_pages (t : Table) (hashAttr : String)
    (hashVal : JVal) (limit : Nat) (keep : Item → Bool) (c0 : JVal)
    (hne : (t.filter (fun it => inCreatedAtIndex hashAttr hashVal it)).Pairwise
      (fun a b => createdAtKey a ≠ createdAtKey b))
    (hpos : ∀ it ∈ t.filter (fun it => inCreatedAtIndex hashAttr hashVal it),
      0 < createdAtKey it)
    (hcur : (pageOf ((sortAscBy createdAtKey (t.filter
        (fun it => inCreatedAtIndex hashAttr hashVal it))).take (limit + 1))
        keep limit "createdAt").cursor = some c0) :
    ∃ k0 : Int, c0 = JVal.num k0 ∧ 0 < k0 ∧
      (∃ rest, (pageOf ((sortAscBy createdAtKey (t.filter
          (fun it => inCreatedAtIndex hashAttr hashVal it))).take (limit + 1))
          keep limit "createdAt").data ++
        (pageOf ((sortAscBy createdAtKey (t.filter
          (fun it => inCreatedAtIndex hashAttr hashVal it &&
            decide (k0 < createdAtKey it)))).take (limit + 1))
          keep limit "createdAt").data ++ rest
        = ((sortAscBy createdAtKey (t.filter
            (fun it => inCreatedAtIndex hashAttr hashVal it))).filter keep).map
            compact) ∧
      (∀ x ∈ (pageOf ((sortAscBy createdAtKey (t.filter
          (fun it => inCreatedAtIndex hashAttr hashVal it &&
            decide (k0 < createdAtKey it)))).take (limit + 1))
          keep limit "createdAt").data,
        ∃ y, x = compact y ∧ keep y = true ∧ k0 < createdAtKey y) := by
  have hcur' : ((((sortAscBy createdAtKey (t.filter
      (fun it => inCreatedAtIndex hashAttr hashVal it))).take (limit + 1)).filter
      keep).take limit).getLast?.bind (fun it => getAttr it "createdAt")
      = some c0 := hcur
  obtain ⟨lastV, hlastV, hattr⟩ := Option.bind_eq_some.mp hcur'
  have hs := sortAscBy_pairwise_strict createdAtKey
    (t.filter (fun it => inCreatedAtIndex hashAttr hashVal it)) hne
  have hasym : ∀ a b : Int, decide (b < a) = true → decide (a < b) = false :=
    fun a b h => decide_eq_false (lt_asymm (of_decide_eq_true h))
  obtain ⟨hmemPool, hkeepLast, ⟨rest0, hprefix⟩, hmem2⟩ :=
    twoPage (fun a b : Int => decide (b < a)) createdAtKey keep
      (sortAscBy createdAtKey (t.filter
        (fun it => inCreatedAtIndex hashAttr hashVal it)))
      (limit + 1) limit lastV hasym
      (hs.imp (fun h => decide_eq_true h)) hlastV
  have hmemF : lastV ∈ t.filter (fun it => inCreatedAtIndex hashAttr hashVal it) :=
    (List.perm_insertionSort _ _).mem_iff.mp hmemPool
  have hbase : inCreatedAtIndex hashAttr hashVal lastV = true :=
    (List.mem_filter.mp hmemF).2
  have hnum : hasNumAttr lastV "createdAt" = true := by
    unfold inCreatedAtIndex at hbase
    exact (Bool.and_eq_true _ _ ▸ hbase).2
  have hc0 : c0 = JVal.num (createdAtKey lastV) := by
    rw [getAttr_createdAt_of_hasNum hnum] at hattr
    exact (Option.some_inj.mp hattr).symm
  refine ⟨createdAtKey lastV, hc0, hpos lastV hmemF, ?_, ?_⟩
  · have hsplit : t.filter (fun it =>
        inCreatedAtIndex hashAttr hashVal it &&
          decide (createdAtKey lastV < createdAtKey it))
        = (t.filter (fun it => inCreatedAtIndex hashAttr hashVal it)).filter
            (fun it => decide (createdAtKey lastV < createdAtKey it)) := by
      rw [List.filter_filter]
      apply List.filter_congr
      intro a _
      rw [Bool.and_comm]
    have hcomm := sortAscBy_filter_comm createdAtKey
      (t.filter (fun it => inCreatedAtIndex hashAttr hashVal it))
      (fun it => decide (createdAtKey lastV < createdAtKey it)) hne
    refine ⟨rest0.map compact, ?_⟩
    show ((((sortAscBy createdAtKey (t.filter
        (fun it => inCreatedAtIndex hashAttr hashVal it))).take (limit + 1)).filter
        keep).take limit).map compact ++ _ ++ _ = _
    rw [hsplit, hcomm]
    have hmc := congrArg (List.map compact) hprefix
    rw [List.map_append, List.map_append] at hmc
    exact hmc
  · intro x hx
    have hx' : x ∈ (((((sortAscBy createdAtKey (t.filter
        (fun it => inCreatedAtIndex hashAttr hashVal it))).filter
        (fun it => decide (createdAtKey lastV < createdAtKey it))).take
        (limit + 1)).filter keep).take limit).map compact := by
      have hsplit : t.filter (fun it =>
          inCreatedAtIndex hashAttr hashVal it &&
            decide (createdAtKey lastV < createdAtKey it))
          = (t.filter (fun it => inCreatedAtIndex hashAttr hashVal it)).filter
              (fun it => decide (createdAtKey lastV < createdAtKey it)) := by
        rw [List.filter_filter]
        apply List.filter_congr
        intro a _
        rw [Bool.and_comm]
      have hcomm := sortAscBy_filter_comm createdAtKey
        (t.filter (fun it => inCreatedAtIndex hashAttr hashVal it))
        (fun it => decide (createdAtKey lastV < createdAtKey it)) hne
      have hx2 : x ∈ (pageOf ((sortAscBy createdAtKey ((t.filter
          (fun it => inCreatedAtIndex hashAttr hashVal it)).filter
          (fun it => decide (createdAtKey lastV < createdAtKey it)))).take
          (limit + 1)) keep limit "createdAt").data := by
        rw [← hsplit]
        exact hx
      rw [hcomm] at hx2
      exact hx2
    obtain ⟨y, hy, hxy⟩ := List.mem_map.mp hx'
    have hkeepy : keep y = true := by
      have h1 := List.Sublist.mem hy (List.take_sublist limit _)
      exact (List.mem_filter.mp h1).2
    have hlty := hmem2 y hy
    exact ⟨y, hxy.symm, hkeepy, of_decide_eq_true hlty⟩

theorem pageOf_take_shape (pool : List Item) (keep : Item → Bool)
    (limit : Nat) (attr : String) :
    ∃ (raw : List Item) (kp : Item → Bool), raw.length ≤ limit + 1 ∧
      (pageOf (pool.take (limit + 1)) keep limit attr).hasMore
        = decide (limit < raw.length) ∧
      (pageOf (pool.take (limit + 1)) keep limit attr).data
        = ((raw.filter kp).take limit).map compact ∧
      (pageOf (pool.take (limit + 1)) keep limit attr).data.length ≤ limit ∧
      ((pageOf (pool.take (limit + 1)) keep limit attr).data = [] →
        (pageOf (pool.take (limit + 1)) keep limit attr).cursor = none) := by
  refine ⟨pool.take (limit + 1), keep, ?_, rfl, rfl,
    (pageOf_basic _ _ _ _).1, (pageOf_basic _ _ _ _).2.1⟩
  rw [List.length_take]
  exact min_le_left _ _

/-- Claim C1, counterexample to the claim as stated.  Two runs of workflow
`w` share the creation instant 5 (two `Date.now()` calls in the same
millisecond).  The first page (limit 1) returns one run with
`hasMore = true` and cursor 5; the second page, issued with that cursor,
queries `createdAt < 5` and returns nothing — the other matching run is
returned by neither page, so paging with the returned cursor has a gap. -/
theorem C1_counterexample_tied_createdAt_gap :
    (runs_list
        [[("PK", JVal.str "RUN#r1"), ("SK", JVal.str "RUN#METADATA"),
          ("entityType", JVal.str "Run"), ("runId", JVal.str "r1"),
          ("workflowName", JVal.str "w"), ("status", JVal.str "pending"),
          ("createdAt", JVal.num 5)],
         [("PK", JVal.str "RUN#r2"), ("SK", JVal.str "RUN#METADATA"),
          ("entityType", JVal.str "Run"), ("runId", JVal.str "r2"),
          ("workflowName", JVal.str "w"), ("status", JVal.str "pending"),
          ("createdAt", JVal.num 5)]]
        (some "w") none 1 none).hasMore = true ∧
    (runs_list
        [[("PK", JVal.str "RUN#r1"), ("SK", JVal.str "RUN#METADATA"),
          ("entityType", JVal.str "Run"), ("runId", JVal.str "r1"),
          ("workflowName", JVal.str "w"), ("status", JVal.str "pending"),
          ("createdAt", JVal.num 5)],
         [("PK", JVal.str "RUN#r2"), ("SK", JVal.str "RUN#METADATA"),
          ("entityType", JVal.str "Run"), ("runId", JVal.str "r2"),
          ("workflowName", JVal.str "w"), ("status", JVal.str "pending"),
          ("createdAt", JVal.num 5)]]
        (some "w") none 1 none).cursor = some (JVal.num 5) ∧
    (runs_list
        [[("PK", JVal.str "RUN#r1"), ("SK", JVal.str "RUN#METADATA"),
          ("entityType", JVal.str "Run"), ("runId", JVal.str "r1"),
          ("workflowName", JVal.str "w"), ("status", JVal.str "pending"),
          ("createdAt", JVal.num 5)],
         [("PK", JVal.str "RUN#r2"), ("SK", JVal.str "RUN#METADATA"),
          ("entityType", JVal.str "Run"), ("runId", JVal.str "r2"),
          ("workflowName", JVal.str "w"), ("status", JVal.str "pending"),
          ("createdAt", JVal.num 5)]]
        (some "w") none 1 none).data.length = 1 ∧
    (runs_list
        [[("PK", JVal.str "RUN#r1"), ("SK", JVal.str "RUN#METADATA"),
          ("entityType", JVal.str "Run"), ("runId", JVal.str "r1"),
          ("workflowName", JVal.str "w"), ("status", JVal.str "pending"),
          ("createdAt", JVal.num 5)],
         [("PK", JVal.str "RUN#r2"), ("SK", JVal.str "RUN#METADATA"),
          ("entityType", JVal.str "Run"), ("runId", JVal.str "r2"),
          ("workflowName", JVal.str "w"), ("status", JVal.str "pending"),
          ("createdAt", JVal.num 5)]]
        (some "w") none 1 (some 5)).data = [] ∧
    ([[("PK", JVal.str "RUN#r1"), ("SK", JVal.str "RUN#METADATA"),
       ("entityType", JVal.str "Run"), ("runId", JVal.str "r1"),
       ("workflowName", JVal.str "w"), ("status", JVal.str "pending"),
       ("createdAt", JVal.num 5)],
      [("PK", JVal.str "RUN#r2"), ("SK", JVal.str "RUN#METADATA"),
       ("entityType", JVal.str "Run"), ("runId", JVal.str "r2"),
       ("workflowName", JVal.str "w"), ("status", JVal.str "pending"),
       ("createdAt", JVal.num 5)]].filter
      (fun it => inCreatedAtIndex "workflowName" (JVal.str "w") it)).length = 2 := by
  refine ⟨by decide, by decide, by decide, by decide, by decide⟩

/-- Claim C1, as amended.  For every list operation: the backend is asked
for `limit + 1` records, `hasMore` holds exactly when it returned more than
`limit`, at most the first `limit` records are projected and returned, the
cursor is the last returned raw record's sort attribute (discriminator id
or creation instant) and `null` on an empty page; and — provided the sort
attributes of the records in the queried index are pairwise distinct (ids
are unique by the primary-key invariant; for creation-instant paths this is
the proviso forced by the tied-timestamp counterexample, instants also
being positive epoch values as produced by `Date.now`, and ids non-empty) —
requesting the next page with a returned cursor yields exactly the records
that come strictly past the prior page's last record, with no overlap and
no gap: the two pages concatenate to a prefix of the full ordered filtered
projection. -/
theorem C1_pagination_contract :
    (∀ (t : Table) (wf : String) (limit : Nat) (c0 : JVal),
      (t.filter (fun it => inCreatedAtIndex "workflowName" (JVal.str wf) it)).Pairwise
        (fun a b => createdAtKey a ≠ createdAtKey b) →
      (∀ it ∈ t.filter (fun it => inCreatedAtIndex "workflowName" (JVal.str wf) it),
        0 < createdAtKey it) →
      (runs_list t (some wf) none limit none).cursor = some c0 →
      ∃ k0 : Int, c0 = JVal.num k0 ∧ 0 < k0 ∧
        (∃ rest, (runs_list t (some wf) none limit none).data ++ (runs_list t (some wf) none limit (some k0)).data ++ rest
          = ((sortDescBy createdAtKey (t.filter
              (fun it => inCreatedAtIndex "workflowName" (JVal.str wf) it))).filter
              (fun _ => true)).map compact) ∧
        (∀ x ∈ (runs_list t (some wf) none limit (some k0)).data, ∃ y, x = compact y ∧ createdAtKey y < k0)) ∧
    (∀ (t : Table) (s : String) (limit : Nat) (c0 : JVal),
      (t.filter (fun it => inCreatedAtIndex "status" (JVal.str s) it)).Pairwise
        (fun a b => createdAtKey a ≠ createdAtKey b) →
      (∀ it ∈ t.filter (fun it => inCreatedAtIndex "status" (JVal.str s) it),
        0 < createdAtKey it) →
      (runs_list t none (some s) limit none).cursor = some c0 →
      ∃ k0 : Int, c0 = JVal.num k0 ∧ 0 < k0 ∧
        (∃ rest, (runs_list t none (some s) limit none).data ++ (runs_list t none (some s) limit (some k0)).data ++ rest
          = ((sortDescBy createdAtKey (t.filter
              (fun it => inCreatedAtIndex "status" (JVal.str s) it))).filter
              (fun _ => true)).map compact) ∧
        (∀ x ∈ (runs_list t none (some s) limit (some k0)).data, ∃ y, x = compact y ∧ createdAtKey y < k0)) ∧
    (∀ (t : Table) (limit : Nat) (c0 : JVal),
      (t.filter (fun it => inCreatedAtIndex "entityType" (JVal.str "Run") it)).Pairwise
        (fun a b => createdAtKey a ≠ createdAtKey b) →
      (∀ it ∈ t.filter (fun it => inCreatedAtIndex "entityType" (JVal.str "Run") it),
        0 < createdAtKey it) →
      (runs_list t none none limit none).cursor = some c0 →
      ∃ k0 : Int, c0 = JVal.num k0 ∧ 0 < k0 ∧
        (∃ rest, (runs_list t none none limit none).data ++ (runs_list t none none limit (some k0)).data ++ rest
          = ((sortDescBy createdAtKey (t.filter
              (fun it => inCreatedAtIndex "entityType" (JVal.str "Run") it))).filter
              (fun _ => true)).map compact) ∧
        (∀ x ∈ (runs_list t none none limit (some k0)).data, ∃ y, x = compact y ∧ createdAtKey y < k0)) ∧
    (∀ (t : Table) (limit : Nat) (c0 : JVal),
      (t.filter (fun it => inCreatedAtIndex "entityType" (JVal.str "Hook") it)).Pairwise
        (fun a b => createdAtKey a ≠ createdAtKey b) →
      (∀ it ∈ t.filter (fun it => inCreatedAtIndex "entityType" (JVal.str "Hook") it),
        0 < createdAtKey it) →
      (hooks_list_global t limit none).cursor = some c0 →
      ∃ k0 : Int, c0 = JVal.num k0 ∧ 0 < k0 ∧
        (∃ rest, (hooks_list_global t limit none).data ++ (hooks_list_global t limit (some k0)).data ++ rest
          = ((sortDescBy createdAtKey (t.filter
              (fun it => inCreatedAtIndex "entityType" (JVal.str "Hook") it))).filter
              (fun it => getAttr it "entityType" == some (JVal.str "Hook"))).map compact) ∧
        (∀ x ∈ (hooks_list_global t limit (some k0)).data, ∃ y, x = compact y ∧ createdAtKey y < k0)) ∧
    (∀ (t : Table) (rid : String) (limit : Nat) (c0 : JVal),
      t.Pairwise
        (fun a b => ¬(itemStr a "PK" = itemStr b "PK" ∧ skStr a = skStr b)) →
      (∀ it ∈ t, (getAttr it "entityType" == some (JVal.str "Step")) = true →
        getAttr it "stepId" = some (JVal.str (itemStr it "stepId")) ∧
        itemStr it "stepId" ≠ "" ∧ skStr it = stepSK (itemStr it "stepId")) →
      (steps_list t rid limit none).cursor = some c0 →
      ∃ sid, c0 = JVal.str sid ∧ sid ≠ "" ∧
        (∃ rest, (steps_list t rid limit none).data ++ (steps_list t rid limit (some sid)).data ++ rest
          = ((sortDescBy skStr (t.filter
              (fun it => getAttr it "PK" == some (JVal.str (runPK rid))))).filter
              (fun it => getAttr it "entityType" == some (JVal.str "Step"))).map compact) ∧
        (∀ x ∈ (steps_list t rid limit (some sid)).data, ∃ y, x = compact y ∧ skStr y < stepSK sid)) ∧
    (∀ (t : Table) (rid : String) (limit : Nat) (c0 : JVal),
      t.Pairwise
        (fun a b => ¬(itemStr a "PK" = itemStr b "PK" ∧ skStr a = skStr b)) →
      (∀ it ∈ t, (getAttr it "entityType" == some (JVal.str "Hook")) = true →
        getAttr it "hookId" = some (JVal.str (itemStr it "hookId")) ∧
        itemStr it "hookId" ≠ "" ∧ skStr it = hookSK (itemStr it "hookId")) →
      (hooks_list_byRun t rid limit none).cursor = some c0 →
      ∃ sid, c0 = JVal.str sid ∧ sid ≠ "" ∧
        (∃ rest, (hooks_list_byRun t rid limit none).data ++ (hooks_list_byRun t rid limit (some sid)).data ++ rest
          = ((sortDescBy skStr (t.filter
              (fun it => getAttr it "PK" == some (JVal.str (runPK rid))))).filter
              (fun it => getAttr it "entityType" == some (JVal.str "Hook"))).map compact) ∧
        (∀ x ∈ (hooks_list_byRun t rid limit (some sid)).data, ∃ y, x = compact y ∧ skStr y < hookSK sid)) ∧
    (∀ (t : Table) (rid : String) (limit : Nat) (c0 : JVal),
      t.Pairwise
        (fun a b => ¬(itemStr a "PK" = itemStr b "PK" ∧ skStr a = skStr b)) →
      (∀ it ∈ t, (getAttr it "entityType" == some (JVal.str "Event")) = true →
        getAttr it "eventId" = some (JVal.str (itemStr it "eventId")) ∧
        itemStr it "eventId" ≠ "" ∧ skStr it = eventSK (itemStr it "eventId")) →
      (events_list t rid limit SortOrder.desc none).cursor = some c0 →
      ∃ sid, c0 = JVal.str sid ∧ sid ≠ "" ∧
        (∃ rest, (events_list t rid limit SortOrder.desc none).data ++ (events_list t rid limit SortOrder.desc (some sid)).data ++ rest
          = ((sortDescBy skStr (t.filter
              (fun it => getAttr it "PK" == some (JVal.str (runPK rid))))).filter
              (fun it => getAttr it "entityType" == some (JVal.str "Event"))).map compact) ∧
        (∀ x ∈ (events_list t rid limit SortOrder.desc (some sid)).data, ∃ y, x = compact y ∧ skStr y < eventSK sid)) ∧
    (∀ (t : Table) (rid : String) (limit : Nat) (c0 : JVal),
      t.Pairwise
        (fun a b => ¬(itemStr a "PK" = itemStr b "PK" ∧ skStr a = skStr b)) →
      (∀ it ∈ t, (getAttr it "entityType" == some (JVal.str "Event")) = true →
        getAttr it "eventId" = some (JVal.str (itemStr it "eventId")) ∧
        itemStr it "eventId" ≠ "" ∧ skStr it = eventSK (itemStr it "eventId")) →
      (events_list t rid limit SortOrder.asc none).cursor = some c0 →
      ∃ sid, c0 = JVal.str sid ∧ sid ≠ "" ∧
        (∃ rest, (events_list t rid limit SortOrder.asc none).data ++ (events_list t rid limit SortOrder.asc (some sid)).data ++ rest
          = ((sortAscBy skStr (t.filter
              (fun it => getAttr it "PK" == some (JVal.str (runPK rid))))).filter
              (fun it => getAttr it "entityType" == some (JVal.str "Event"))).map compact) ∧
        (∀ x ∈ (events_list t rid limit SortOrder.asc (some sid)).data, ∃ y, x = compact y ∧ eventSK sid < skStr y)) ∧
    (∀ (t : Table) (cid : String) (limit : Nat) (c0 : JVal),
      (t.filter (fun it => inCreatedAtIndex "correlationId" (JVal.str cid) it)).Pairwise
        (fun a b => createdAtKey a ≠ createdAtKey b) →
      (∀ it ∈ t.filter (fun it => inCreatedAtIndex "correlationId" (JVal.str cid) it),
        0 < createdAtKey it) →
      (events_listByCorrelationId t cid limit SortOrder.desc none).cursor = some c0 →
      ∃ k0 : Int, c0 = JVal.num k0 ∧ 0 < k0 ∧
        (∃ rest, (events_listByCorrelationId t cid limit SortOrder.desc none).data ++ (events_listByCorrelationId t cid limit SortOrder.desc (some k0)).data ++ rest
          = ((sortDescBy createdAtKey (t.filter
              (fun it => inCreatedAtIndex "correlationId" (JVal.str cid) it))).filter
              (fun it => getAttr it "entityType" == some (JVal.str "Event"))).map compact) ∧
        (∀ x ∈ (events_listByCorrelationId t cid limit SortOrder.desc (some k0)).data, ∃ y, x = compact y ∧ createdAtKey y < k0)) ∧
    (∀ (t : Table) (cid : String) (limit : Nat) (c0 : JVal),
      (t.filter (fun it => inCreatedAtIndex "correlationId" (JVal.str cid) it)).Pairwise
        (fun a b => createdAtKey a ≠ createdAtKey b) →
      (∀ it ∈ t.filter (fun it => inCreatedAtIndex "correlationId" (JVal.str cid) it),
        0 < createdAtKey it) →
      (events_listByCorrelationId t cid limit SortOrder.asc none).cursor = some c0 →
      ∃ k0 : Int, c0 = JVal.num k0 ∧ 0 < k0 ∧
        (∃ rest, (events_listByCorrelationId t cid limit SortOrder.asc none).data ++ (events_listByCorrelationId t cid limit SortOrder.asc (some k0)).data ++ rest
          = ((sortAscBy createdAtKey (t.filter
              (fun it => inCreatedAtIndex "correlationId" (JVal.str cid) it))).filter
              (fun it => getAttr it "entityType" == some (JVal.str "Event"))).map compact) ∧
        (∀ x ∈ (events_listByCorrelationId t cid limit SortOrder.asc (some k0)).data, ∃ y, x = compact y ∧ k0 < createdAtKey y)) ∧
    (∀ (t : Table) (wf st : Option String) (limit : Nat) (cursor : Option Int),
      ∃ (raw : List Item) (kp : Item → Bool), raw.length ≤ limit + 1 ∧
        (runs_list t wf st limit cursor).hasMore = decide (limit < raw.length) ∧
        (runs_list t wf st limit cursor).data = ((raw.filter kp).take limit).map compact ∧
        (runs_list t wf st limit cursor).data.length ≤ limit ∧
        ((runs_list t wf st limit cursor).data = [] → (runs_list t wf st limit cursor).cursor = none)) ∧
    (∀ (t : Table) (rid : String) (limit : Nat) (cursor : Option String),
      ∃ (raw : List Item) (kp : Item → Bool), raw.length ≤ limit + 1 ∧
        (steps_list t rid limit cursor).hasMore = decide (limit < raw.length) ∧
        (steps_list t rid limit cursor).data = ((raw.filter kp).take limit).map compact ∧
        (steps_list t rid limit cursor).data.length ≤ limit ∧
        ((steps_list t rid limit cursor).data = [] → (steps_list t rid limit cursor).cursor = none)) ∧
    (∀ (t : Table) (rid : String) (limit : Nat) (cursor : Option String),
      ∃ (raw : List Item) (kp : Item → Bool), raw.length ≤ limit + 1 ∧
        (hooks_list_byRun t rid limit cursor).hasMore = decide (limit < raw.length) ∧
        (hooks_list_byRun t rid limit cursor).data = ((raw.filter kp).take limit).map compact ∧
        (hooks_list_byRun t rid limit cursor).data.length ≤ limit ∧
        ((hooks_list_byRun t rid limit cursor).data = [] → (hooks_list_byRun t rid limit cursor).cursor = none)) ∧
    (∀ (t : Table) (limit : Nat) (cursor : Option Int),
      ∃ (raw : List Item) (kp : Item → Bool), raw.length ≤ limit + 1 ∧
        (hooks_list_global t limit cursor).hasMore = decide (limit < raw.length) ∧
        (hooks_list_global t limit cursor).data = ((raw.filter kp).take limit).map compact ∧
        (hooks_list_global t limit cursor).data.length ≤ limit ∧
        ((hooks_list_global t limit cursor).data = [] → (hooks_list_global t limit cursor).cursor = none)) ∧
    (∀ (t : Table) (rid : String) (limit : Nat) (so : SortOrder) (cursor : Option String),
      ∃ (raw : List Item) (kp : Item → Bool), raw.length ≤ limit + 1 ∧
        (events_list t rid limit so cursor).hasMore = decide (limit < raw.length) ∧
        (events_list t rid limit so cursor).data = ((raw.filter kp).take limit).map compact ∧
        (events_list t rid limit so cursor).data.length ≤ limit ∧
        ((events_list t rid limit so cursor).data = [] → (events_list t rid limit so cursor).cursor = none)) ∧
    (∀ (t : Table) (cid : String) (limit : Nat) (so : SortOrder) (cursor : Option Int),
      ∃ (raw : List Item) (kp : Item → Bool), raw.length ≤ limit + 1 ∧
        (events_listByCorrelationId t cid limit so cursor).hasMore = decide (limit < raw.length) ∧
        (events_listByCorrelationId t cid limit so cursor).data = ((raw.filter kp).take limit).map compact ∧
        (events_listByCorrelationId t cid limit so cursor).data.length ≤ limit ∧
        ((events_listByCorrelationId t cid limit so cursor).data = [] → (events_listByCorrelationId t cid limit so cursor).cursor = none)) := by
  refine ⟨?_, ?_, ?_, ?_, ?_, ?_, ?_, ?_, ?_, ?_, ?_, ?_, ?_, ?_, ?_, ?_⟩
  · intro t wf limit c0 hne hpos hcur
    have hb1 : runs_list t (some wf) none limit none = pageOf ((sortDescBy createdAtKey (t.filter
        (fun it => inCreatedAtIndex "workflowName" (JVal.str wf) it))).take (limit + 1))
        (fun _ => true) limit "createdAt" := rfl
    rw [hb1] at hcur
    obtain ⟨k0, hc0, hk0, ⟨rest, hpre⟩, hmem⟩ :=
      descCreatedAtPage_two_pages t "workflowName" (JVal.str wf) limit (fun _ => true) c0 hne hpos hcur
    have hne0 : (k0 == 0) = false := by
      cases hb : (k0 == 0) with
      | false => rfl
      | true => exact absurd (by simpa using hb) (ne_of_gt hk0)
    have hic : intCursor (some k0) = some k0 := by
      simp [intCursor, hne0]
    have hb2 : runs_list t (some wf) none limit (some k0) = pageOf ((sortDescBy createdAtKey (t.filter
        (fun it => inCreatedAtIndex "workflowName" (JVal.str wf) it &&
          decide (createdAtKey it < k0)))).take (limit + 1))
        (fun _ => true) limit "createdAt" := by
      show createdAtPage t "workflowName" (JVal.str wf) limit (some k0) (fun _ => true) = _
      simp only [createdAtPage, hic]
    refine ⟨k0, hc0, hk0, ⟨rest, ?_⟩, ?_⟩
    · rw [hb1, hb2]
      exact hpre
    · intro x hx
      rw [hb2] at hx
      obtain ⟨y, h1, h2, h3⟩ := hmem x hx
      exact ⟨y, h1, h3⟩
  · intro t s limit c0 hne hpos hcur
    have hb1 : runs_list t none (some s) limit none = pageOf ((sortDescBy createdAtKey (t.filter
        (fun it => inCreatedAtIndex "status" (JVal.str s) it))).take (limit + 1))
        (fun _ => true) limit "createdAt" := rfl
    rw [hb1] at hcur
    obtain ⟨k0, hc0, hk0, ⟨rest, hpre⟩, hmem⟩ :=
      descCreatedAtPage_two_pages t "status" (JVal.str s) limit (fun _ => true) c0 hne hpos hcur
    have hne0 : (k0 == 0) = false := by
      cases hb : (k0 == 0) with
      | false => rfl
      | true => exact absurd (by simpa using hb) (ne_of_gt hk0)
    have hic : intCursor (some k0) = some k0 := by
      simp [intCursor, hne0]
    have hb2 : runs_list t none (some s) limit (some k0) = pageOf ((sortDescBy createdAtKey (t.filter
        (fun it => inCreatedAtIndex "status" (JVal.str s) it &&
          decide (createdAtKey it < k0)))).take (limit + 1))
        (fun _ => true) limit "createdAt" := by
      show createdAtPage t "status" (JVal.str s) limit (some k0) (fun _ => true) = _
      simp only [createdAtPage, hic]
    refine ⟨k0, hc0, hk0, ⟨rest, ?_⟩, ?_⟩
    · rw [hb1, hb2]
      exact hpre
    · intro x hx
      rw [hb2] at hx
      obtain ⟨y, h1, h2, h3⟩ := hmem x hx
      exact ⟨y, h1, h3⟩
  · intro t limit c0 hne hpos hcur
    have hb1 : runs_list t none none limit none = pageOf ((sortDescBy createdAtKey (t.filter
        (fun it => inCreatedAtIndex "entityType" (JVal.str "Run") it))).take (limit + 1))
        (fun _ => true) limit "createdAt" := rfl
    rw [hb1] at hcur
    obtain ⟨k0, hc0, hk0, ⟨rest, hpre⟩, hmem⟩ :=
      descCreatedAtPage_two_pages t "entityType" (JVal.str "Run") limit (fun _ => true) c0 hne hpos hcur
    have hne0 : (k0 == 0) = false := by
      cases hb : (k0 == 0) with
      | false => rfl
      | true => exact absurd (by simpa using hb) (ne_of_gt hk0)
    have hic : intCursor (some k0) = some k0 := by
      simp [intCursor, hne0]
    have hb2 : runs_list t none none limit (some k0) = pageOf ((sortDescBy createdAtKey (t.filter
        (fun it => inCreatedAtIndex "entityType" (JVal.str "Run") it &&
          decide (createdAtKey it < k0)))).take (limit + 1))
        (fun _ => true) limit "createdAt" := by
      show createdAtPage t "entityType" (JVal.str "Run") limit (some k0) (fun _ => true) = _
      simp only [createdAtPage, hic]
    refine ⟨k0, hc0, hk0, ⟨rest, ?_⟩, ?_⟩
    · rw [hb1, hb2]
      exact hpre
    · intro x hx
      rw [hb2] at hx
      obtain ⟨y, h1, h2, h3⟩ := hmem x hx
      exact ⟨y, h1, h3⟩
  · intro t limit c0 hne hpos hcur
    have hb1 : hooks_list_global t limit none = pageOf ((sortDescBy createdAtKey (t.filter
        (fun it => inCreatedAtIndex "entityType" (JVal.str "Hook") it))).take (limit + 1))
        (fun it => getAttr it "entityType" == some (JVal.str "Hook")) limit "createdAt" := rfl
    rw [hb1] at hcur
    obtain ⟨k0, hc0, hk0, ⟨rest, hpre⟩, hmem⟩ :=
      descCreatedAtPage_two_pages t "entityType" (JVal.str "Hook") limit (fun it => getAttr it "entityType" == some (JVal.str "Hook")) c0 hne hpos hcur
    have hne0 : (k0 == 0) = false := by
      cases hb : (k0 == 0) with
      | false => rfl
      | true => exact absurd (by simpa using hb) (ne_of_gt hk0)
    have hic : intCursor (some k0) = some k0 := by
      simp [intCursor, hne0]
    have hb2 : hooks_list_global t limit (some k0) = pageOf ((sortDescBy createdAtKey (t.filter
        (fun it => inCreatedAtIndex "entityType" (JVal.str "Hook") it &&
          decide (createdAtKey it < k0)))).take (limit + 1))
        (fun it => getAttr it "entityType" == some (JVal.str "Hook")) limit "createdAt" := by
      show createdAtPage t "entityType" (JVal.str "Hook") limit (some k0) (fun it => getAttr it "entityType" == some (JVal.str "Hook")) = _
      simp only [createdAtPage, hic]
    refine ⟨k0, hc0, hk0, ⟨rest, ?_⟩, ?_⟩
    · rw [hb1, hb2]
      exact hpre
    · intro x hx
      rw [hb2] at hx
      obtain ⟨y, h1, h2, h3⟩ := hmem x hx
      exact ⟨y, h1, h3⟩
  · intro t rid limit c0 hkeys hwf hcur
    have hb1 : steps_list t rid limit none = pageOf ((sortDescBy skStr (t.filter
        (fun it => getAttr it "PK" == some (JVal.str (runPK rid))))).take (limit + 1))
        (fun it => getAttr it "entityType" == some (JVal.str "Step")) limit "stepId" := rfl
    rw [hb1] at hcur
    obtain ⟨sid, hc0, hsidne, ⟨rest, hpre⟩, hmem⟩ :=
      descSkPage_two_pages t (runPK rid) limit (fun it => getAttr it "entityType" == some (JVal.str "Step")) "stepId" stepSK c0
        hkeys hwf hcur
    have hne0 : (sid == "") = false := by
      cases hb : (sid == "") with
      | false => rfl
      | true => exact absurd (by simpa using hb) hsidne
    have hsc : strCursor (some sid) = some sid := by
      simp [strCursor, hne0]
    have hb2 : steps_list t rid limit (some sid) = pageOf ((sortDescBy skStr (t.filter
        (fun it => getAttr it "PK" == some (JVal.str (runPK rid)) &&
          decide (skStr it < stepSK sid)))).take (limit + 1))
        (fun it => getAttr it "entityType" == some (JVal.str "Step")) limit "stepId" := by
      simp only [steps_list, hsc]
    refine ⟨sid, hc0, hsidne, ⟨rest, ?_⟩, ?_⟩
    · rw [hb1, hb2]
      exact hpre
    · intro x hx
      rw [hb2] at hx
      obtain ⟨y, h1, h2, h3⟩ := hmem x hx
      exact ⟨y, h1, h3⟩
  · intro t rid limit c0 hkeys hwf hcur
    have hb1 : hooks_list_byRun t rid limit none = pageOf ((sortDescBy skStr (t.filter
        (fun it => getAttr it "PK" == some (JVal.str (runPK rid))))).take (limit + 1))
        (fun it => getAttr it "entityType" == some (JVal.str "Hook")) limit "hookId" := rfl
    rw [hb1] at hcur
    obtain ⟨sid, hc0, hsidne, ⟨rest, hpre⟩, hmem⟩ :=
      descSkPage_two_pages t (runPK rid) limit (fun it => getAttr it "entityType" == some (JVal.str "Hook")) "hookId" hookSK c0
        hkeys hwf hcur
    have hne0 : (sid == "") = false := by
      cases hb : (sid == "") with
      | false => rfl
      | true => exact absurd (by simpa using hb) hsidne
    have hsc : strCursor (some sid) = some sid := by
      simp [strCursor, hne0]
    have hb2 : hooks_list_byRun t rid limit (some sid) = pageOf ((sortDescBy skStr (t.filter
        (fun it => getAttr it "PK" == some (JVal.str (runPK rid)) &&
          decide (skStr it < hookSK sid)))).take (limit + 1))
        (fun it => getAttr it "entityType" == some (JVal.str "Hook")) limit "hookId" := by
      simp only [hooks_list_byRun, hsc]
    refine ⟨sid, hc0, hsidne, ⟨rest, ?_⟩, ?_⟩
    · rw [hb1, hb2]
      exact hpre
    · intro x hx
      rw [hb2] at hx
      obtain ⟨y, h1, h2, h3⟩ := hmem x hx
      exact ⟨y, h1, h3⟩
  · intro t rid limit c0 hkeys hwf hcur
    have hb1 : events_list t rid limit SortOrder.desc none = pageOf ((sortDescBy skStr (t.filter
        (fun it => getAttr it "PK" == some (JVal.str (runPK rid))))).take (limit + 1))
        (fun it => getAttr it "entityType" == some (JVal.str "Event")) limit "eventId" := rfl
    rw [hb1] at hcur
    obtain ⟨sid, hc0, hsidne, ⟨rest, hpre⟩, hmem⟩ :=
      descSkPage_two_pages t (runPK rid) limit (fun it => getAttr it "entityType" == some (JVal.str "Event")) "eventId" eventSK c0
        hkeys hwf hcur
    have hne0 : (sid == "") = false := by
      cases hb : (sid == "") with
      | false => rfl
      | true => exact absurd (by simpa using hb) hsidne
    have hsc : strCursor (some sid) = some sid := by
      simp [strCursor, hne0]
    have hb2 : events_list t rid limit SortOrder.desc (some sid) = pageOf ((sortDescBy skStr (t.filter
        (fun it => getAttr it "PK" == some (JVal.str (runPK rid)) &&
          decide (skStr it < eventSK sid)))).take (limit + 1))
        (fun it => getAttr it "entityType" == some (JVal.str "Event")) limit "eventId" := by
      simp only [events_list, hsc]
    refine ⟨sid, hc0, hsidne, ⟨rest, ?_⟩, ?_⟩
    · rw [hb1, hb2]
      exact hpre
    · intro x hx
      rw [hb2] at hx
      obtain ⟨y, h1, h2, h3⟩ := hmem x hx
      exact ⟨y, h1, h3⟩
  · intro t rid limit c0 hkeys hwf hcur
    have hb1 : events_list t rid limit SortOrder.asc none = pageOf ((sortAscBy skStr (t.filter
        (fun it => getAttr it "PK" == some (JVal.str (runPK rid))))).take (limit + 1))
        (fun it => getAttr it "entityType" == some (JVal.str "Event")) limit "eventId" := rfl
    rw [hb1] at hcur
    obtain ⟨sid, hc0, hsidne, ⟨rest, hpre⟩, hmem⟩ :=
      ascSkPage_two_pages t (runPK rid) limit (fun it => getAttr it "entityType" == some (JVal.str "Event")) "eventId" eventSK c0
        hkeys hwf hcur
    have hne0 : (sid == "") = false := by
      cases hb : (sid == "") with
      | false => rfl
      | true => exact absurd (by simpa using hb) hsidne
    have hsc : strCursor (some sid) = some sid := by
      simp [strCursor, hne0]
    have hb2 : events_list t rid limit SortOrder.asc (some sid) = pageOf ((sortAscBy skStr (t.filter
        (fun it => getAttr it "PK" == some (JVal.str (runPK rid)) &&
          decide (eventSK sid < skStr it)))).take (limit + 1))
        (fun it => getAttr it "entityType" == some (JVal.str "Event")) limit "eventId" := by
      simp only [events_list, hsc]
    refine ⟨sid, hc0, hsidne, ⟨rest, ?_⟩, ?_⟩
    · rw [hb1, hb2]
      exact hpre
    · intro x hx
      rw [hb2] at hx
      obtain ⟨y, h1, h2, h3⟩ := hmem x hx
      exact ⟨y, h1, h3⟩
  · intro t cid limit c0 hne hpos hcur
    have hb1 : events_listByCorrelationId t cid limit SortOrder.desc none = pageOf ((sortDescBy createdAtKey (t.filter
        (fun it => inCreatedAtIndex "correlationId" (JVal.str cid) it))).take (limit + 1))
        (fun it => getAttr it "entityType" == some (JVal.str "Event")) limit "createdAt" := rfl
    rw [hb1] at hcur
    obtain ⟨k0, hc0, hk0, ⟨rest, hpre⟩, hmem⟩ :=
      descCreatedAtPage_two_pages t "correlationId" (JVal.str cid) limit (fun it => getAttr it "entityType" == some (JVal.str "Event")) c0 hne hpos hcur
    have hne0 : (k0 == 0) = false := by
      cases hb : (k0 == 0) with
      | false => rfl
      | true => exact absurd (by simpa using hb) (ne_of_gt hk0)
    have hic : intCursor (some k0) = some k0 := by
      simp [intCursor, hne0]
    have hb2 : events_listByCorrelationId t cid limit SortOrder.desc (some k0) = pageOf ((sortDescBy createdAtKey (t.filter
        (fun it => inCreatedAtIndex "correlationId" (JVal.str cid) it &&
          decide (createdAtKey it < k0)))).take (limit + 1))
        (fun it => getAttr it "entityType" == some (JVal.str "Event")) limit "createdAt" := by
      simp only [events_listByCorrelationId, hic]
    refine ⟨k0, hc0, hk0, ⟨rest, ?_⟩, ?_⟩
    · rw [hb1, hb2]
      exact hpre
    · intro x hx
      rw [hb2] at hx
      obtain ⟨y, h1, h2, h3⟩ := hmem x hx
      exact ⟨y, h1, h3⟩
  · intro t cid limit c0 hne hpos hcur
    have hb1 : events_listByCorrelationId t cid limit SortOrder.asc none = pageOf ((sortAscBy createdAtKey (t.filter
        (fun it => inCreatedAtIndex "correlationId" (JVal.str cid) it))).take (limit + 1))
        (fun it => getAttr it "entityType" == some (JVal.str "Event")) limit "createdAt" := rfl
    rw [hb1] at hcur
    obtain ⟨k0, hc0, hk0, ⟨rest, hpre⟩, hmem⟩ :=
      ascCreatedAtPage_two_pages t "correlationId" (JVal.str cid) limit (fun it => getAttr it "entityType" == some (JVal.str "Event")) c0 hne hpos hcur
    have hne0 : (k0 == 0) = false := by
      cases hb : (k0 == 0) with
      | false => rfl
      | true => exact absurd (by simpa using hb) (ne_of_gt hk0)
    have hic : intCursor (some k0) = some k0 := by
      simp [intCursor, hne0]
    have hb2 : events_listByCorrelationId t cid limit SortOrder.asc (some k0) = pageOf ((sortAscBy createdAtKey (t.filter
        (fun it => inCreatedAtIndex "correlationId" (JVal.str cid) it &&
          decide (k0 < createdAtKey it)))).take (limit + 1))
        (fun it => getAttr it "entityType" == some (JVal.str "Event")) limit "createdAt" := by
      simp only [events_listByCorrelationId, hic]
    refine ⟨k0, hc0, hk0, ⟨rest, ?_⟩, ?_⟩
    · rw [hb1, hb2]
      exact hpre
    · intro x hx
      rw [hb2] at hx
      obtain ⟨y, h1, h2, h3⟩ := hmem x hx
      exact ⟨y, h1, h3⟩
  · intro t wf st limit cursor
    cases wf with
    | some w => exact pageOf_take_shape _ _ _ _
    | none =>
        cases st with
        | some s => exact pageOf_take_shape _ _ _ _
        | none => exact pageOf_take_shape _ _ _ _
  · intro t rid limit cursor
    exact pageOf_take_shape _ _ _ _
  · intro t rid limit cursor
    exact pageOf_take_shape _ _ _ _
  · intro t limit cursor
    exact pageOf_take_shape _ _ _ _
  · intro t rid limit so cursor
    exact pageOf_take_shape _ _ _ _
  · intro t cid limit so cursor
    exact pageOf_take_shape _ _ _ _

theorem C1_pagination_contract_witness :
    ∃ k0 : Int, JVal.num 2 = JVal.num k0 ∧ 0 < k0 ∧
      (∃ rest, (runs_list tableW2 (some "w") none 1 none).data ++
          (runs_list tableW2 (some "w") none 1 (some k0)).data ++ rest
        = ((sortDescBy createdAtKey (tableW2.filter
            (fun it => inCreatedAtIndex "workflowName" (JVal.str "w") it))).filter
            (fun _ => true)).map compact) ∧
      (∀ x ∈ (runs_list tableW2 (some "w") none 1 (some k0)).data,
        ∃ y, x = compact y ∧ createdAtKey y < k0) :=
  C1_pagination_contract.1 tableW2 "w" 1 (JVal.num 2) (by decide) (by decide)
    (by decide)

end SstWdkWorld
